import Mathlib

/-
Verification development for the miden-vm core samples:
* `src/assembly/src/sema/mod.rs` — semantic analysis of assembly modules
  (`analyze`, `visit_procedures`, `define_import`, `define_procedure`);
* `src/processor/src/operations/mod.rs` — the operation dispatcher
  (`execute_op`, `advance_clock`, `ensure_trace_capacity`).

The embedding follows the source files where they exist.  Parts of the
repository that are only referenced from those files (the `AnalysisContext`
and `Module` methods, the visitor passes, the per-operation handlers and the
process components) are modelled from the specification, each marked with a
doc comment starting with `Modelled from the spec:`.
-/

namespace Miden

-- ==========================================================================
-- Semantic analysis: data model
-- ==========================================================================

/-- Modelled from the spec: a byte range within a source file; every
syntactic item carries one (§3 "Span"). -/
structure Span where
  lo : Nat
  hi : Nat
deriving DecidableEq, Repr

abbrev Ident := String

/-- Modelled from the spec: a docstring with its source span. -/
structure DocString where
  span : Span
  text : String
deriving DecidableEq, Repr

/-- Modelled from the spec: ordered sequence of identifiers (§3
"LibraryPath"); `namespace()` is the leading component. -/
structure LibraryPath where
  components : List Ident
deriving DecidableEq, Repr

/-- Modelled from the spec: the leading (namespace) component of a path,
as used by `target.module.namespace().to_ident()` in `visit_procedures`. -/
def LibraryPath.ns (p : LibraryPath) : Ident :=
  p.components.headD ""

/-- Module kind (§3), as matched on by `analyze`. -/
inductive ModuleKind
  | Library
  | Kernel
  | Executable
deriving DecidableEq, Repr

/-- Visibility (§3); `Syscall` is assigned by the procedure passes when
finalizing a Kernel module's public procedures. -/
inductive Visibility
  | Private
  | Public
  | Syscall
deriving DecidableEq, Repr

/-- Modelled from the spec: exported means `Public` or `Syscall` (§4.2 uses
`export.visibility().is_exported()`). -/
def Visibility.is_exported : Visibility → Bool
  | .Private => false
  | .Public => true
  | .Syscall => true

/-- Modelled from the spec: an import entry (§3 "Import"). -/
structure Import where
  span : Span
  local_name : Ident
  path : LibraryPath
  uses : Nat
deriving DecidableEq, Repr

/-- Modelled from the spec: `import.is_used()` as used by the unused-import
check at the end of `analyze`. -/
def Import.is_used (i : Import) : Bool :=
  decide (0 < i.uses)

/-- Modelled from the spec: a constant expression, evaluated eagerly on
definition; it may reference already-defined constants (§4.1). -/
inductive ConstExpr
  | lit (v : Nat)
  | var (name : Ident) (span : Span)
  | add (a b : ConstExpr)
deriving DecidableEq, Repr

/-- Modelled from the spec: a named constant form (§3 "Constant"). -/
structure Constant where
  span : Span
  name : Ident
  value : ConstExpr
  docs : Option DocString
deriving DecidableEq, Repr

def Constant.with_docs (c : Constant) (d : Option DocString) : Constant :=
  { c with docs := d }

/-- Modelled from the spec: a named immediate is either a concrete value or
a reference to a defined constant (§4.3 "ConstEvalVisitor"). -/
inductive Immediate
  | value (v : Nat)
  | name (id : Ident) (span : Span)
deriving DecidableEq, Repr

/-- Modelled from the spec: the target of an `exec`/`call`/`syscall`
reference in a procedure body (§4.3 "VerifyInvokeTargets"). -/
structure ProcedurePathTarget where
  span : Span
  module : LibraryPath
  name : Ident
deriving DecidableEq, Repr

/-- Modelled from the spec: callee references are a bare local name, a
short import-qualified path, or an absolute path (§4.3). -/
inductive InvocationTarget
  | ProcedureName (name : Ident) (span : Span)
  | ProcedurePath (target : ProcedurePathTarget)
  | AbsoluteProcedurePath (path : LibraryPath) (name : Ident) (span : Span)
deriving DecidableEq, Repr

def InvocationTarget.span : InvocationTarget → Span
  | .ProcedureName _ sp => sp
  | .ProcedurePath t => t.span
  | .AbsoluteProcedurePath _ _ sp => sp

/-- Modelled from the spec: the body fragment of the instruction set that
the analysis passes inspect — invocations and named immediates (§4.3). -/
inductive Instruction
  | push (imm : Immediate)
  | exec (target : InvocationTarget)
  | call (target : InvocationTarget)
  | syscall (target : InvocationTarget)
  | nop
deriving DecidableEq, Repr

/-- Modelled from the spec: a procedure definition (§3 "Procedure"). -/
structure Procedure where
  span : Span
  visibility : Visibility
  name : Ident
  num_locals : Nat
  body : List Instruction
  docs : Option DocString
deriving DecidableEq, Repr

def Procedure.set_visibility (p : Procedure) (v : Visibility) : Procedure :=
  { p with visibility := v }

/-- Modelled from the spec: the target of a re-export (§3 "Alias"). -/
inductive AliasTarget
  | ProcedurePath (target : ProcedurePathTarget)
deriving DecidableEq, Repr

/-- Modelled from the spec: a re-export of an imported procedure (§3
"Alias"); a non-absolute alias has its target rewritten by the passes. -/
structure ProcAlias where
  span : Span
  name : Ident
  target : AliasTarget
  absolute : Bool
  docs : Option DocString
deriving DecidableEq, Repr

def ProcAlias.is_absolute (a : ProcAlias) : Bool :=
  a.absolute

/-- Exports are procedures or aliases (§3 "Export"), as matched on by
`analyze` and `visit_procedures`. -/
inductive Export
  | Procedure (p : Procedure)
  | Alias (a : ProcAlias)
deriving DecidableEq, Repr

def Export.name : Export → Ident
  | .Procedure p => p.name
  | .Alias a => a.name

def Export.span : Export → Span
  | .Procedure p => p.span
  | .Alias a => a.span

/-- Modelled from the spec: `export.visibility()`; a re-export is visible
like a public procedure. -/
def Export.visibility : Export → Visibility
  | .Procedure p => p.visibility
  | .Alias _ => .Public

/-- Modelled from the spec: `export.is_main()` — the entry-point name is
conventional (§3 invariant 3). -/
def Export.is_main (e : Export) : Bool :=
  decide (e.name = "main")

def Export.with_docs (e : Export) (d : Option DocString) : Export :=
  match e with
  | .Procedure p => .Procedure { p with docs := d }
  | .Alias a => .Alias { a with docs := d }

/-- The visibility carried by a procedure export, `none` for aliases; used
to state the kernel visibility-rewrite invariant. -/
def Export.procedure_visibility : Export → Option Visibility
  | .Procedure p => some p.visibility
  | .Alias _ => none

/-- Modelled from the spec: a module under construction (§3 "Module"). -/
structure Module where
  kind : ModuleKind
  path : LibraryPath
  docs : Option DocString
  imports : List Import
  procedures : List Export
deriving DecidableEq, Repr

/-- `Module::new(kind, path)`. -/
def Module.new (kind : ModuleKind) (path : LibraryPath) : Module :=
  { kind := kind, path := path, docs := none, imports := [], procedures := [] }

def Module.set_docs (m : Module) (d : Option DocString) : Module :=
  { m with docs := d }

def Module.is_kernel (m : Module) : Bool :=
  decide (m.kind = ModuleKind.Kernel)

/-- Modelled from the spec: whether an executable module has defined its
entry point (`module.has_entrypoint()`). -/
def Module.has_entrypoint (m : Module) : Bool :=
  m.procedures.any (fun e => e.is_main)

/-- Semantic diagnostics (§7), each carrying a span where the spec gives
one.  `CallInKernel` is emitted by the invoke-target pass for `call` or
`syscall` inside a Kernel module; the spec mandates the check (§4.3 rule 1)
without naming the diagnostic. -/
inductive SemanticAnalysisError
  | UnusedDocstring (span : Span)
  | ImportDocstring (span : Span)
  | UnexpectedExport (span : Span)
  | ReexportFromKernel (span : Span)
  | UnexpectedEntrypoint (span : Span)
  | MissingEntrypoint
  | ImportConflict (span : Span)
  | SymbolConflict (span : Span)
  | MissingImport (span : Span)
  | UnusedImport (span : Span)
  | ConstantRedefinition (span : Span)
  | UnresolvedConstant (span : Span)
  | CallInKernel (span : Span)
deriving DecidableEq, Repr

/-- Diagnostic severity: the buffer is partitioned into errors and
warnings (§4.1). -/
inductive Severity
  | error
  | warning
deriving DecidableEq, Repr

/-- Modelled from the spec: `UnusedImport` is a warning by default; every
other semantic diagnostic is an error (§7). -/
def SemanticAnalysisError.severity : SemanticAnalysisError → Severity
  | .UnusedImport _ => .warning
  | _ => .error

abbrev Diagnostic := Severity × SemanticAnalysisError

/-- Modelled from the spec: the failure value returned by the analyzer; it
carries the complete diagnostic list of the invocation (§7). -/
structure SyntaxError where
  diagnostics : List Diagnostic
deriving DecidableEq, Repr

/-- Modelled from the spec: the analysis context (§4.1) — diagnostic
buffer, warnings-as-errors flag, evaluated constants, and the set of
registered procedure names. -/
structure AnalysisContext where
  diagnostics : List Diagnostic
  warnings_as_errors : Bool
  constants : List (Ident × Nat)
  procedure_names : List Ident
deriving DecidableEq, Repr

/-- `AnalysisContext::new` followed by `set_warnings_as_errors`. -/
def AnalysisContext.new (warnings_as_errors : Bool) : AnalysisContext :=
  { diagnostics := [], warnings_as_errors := warnings_as_errors,
    constants := [], procedure_names := [] }

/-- Modelled from the spec: record a diagnostic; `warnings_as_errors`
promotes a warning on insertion (§4.1). -/
def AnalysisContext.error (ctx : AnalysisContext) (e : SemanticAnalysisError) :
    AnalysisContext :=
  let sev : Severity :=
    match e.severity with
    | .warning => if ctx.warnings_as_errors then .error else .warning
    | .error => .error
  { ctx with diagnostics := ctx.diagnostics ++ [(sev, e)] }

/-- Modelled from the spec: `has_failed()` returns failure if any error is
present; it is the gate between phases (§4.1). -/
def AnalysisContext.has_failed (ctx : AnalysisContext) :
    Except SyntaxError Unit :=
  if ctx.diagnostics.any (fun d => decide (d.1 = Severity.error)) then
    .error ⟨ctx.diagnostics⟩
  else
    .ok ()

/-- Modelled from the spec: `into_result()` fails like `has_failed()`,
surfacing the complete diagnostic list (§4.1). -/
def AnalysisContext.into_result (ctx : AnalysisContext) :
    Except SyntaxError Unit :=
  ctx.has_failed

/-- `register_procedure_name(name)` (§4.1). -/
def AnalysisContext.register_procedure_name (ctx : AnalysisContext)
    (name : Ident) : AnalysisContext :=
  { ctx with procedure_names := ctx.procedure_names ++ [name] }

/-- Modelled from the spec: eager evaluation of a constant expression
against the already-defined constants (§4.1). -/
def ConstExpr.eval (cs : List (Ident × Nat)) :
    ConstExpr → Except SemanticAnalysisError Nat
  | .lit v => .ok v
  | .var n sp =>
    match cs.lookup n with
    | some v => .ok v
    | none => .error (.UnresolvedConstant sp)
  | .add a b => do
    let va ← a.eval cs
    let vb ← b.eval cs
    .ok (va + vb)

/-- Modelled from the spec: `define_constant(Constant)` — evaluated eagerly
on definition; an unresolved reference (or redefinition) is recorded and
gates via `has_failed()`, short-circuiting the analysis (§4.1). -/
def AnalysisContext.define_constant (ctx : AnalysisContext) (c : Constant) :
    Except SyntaxError AnalysisContext :=
  if ctx.constants.any (fun kv => decide (kv.1 = c.name)) then
    let ctx := ctx.error (.ConstantRedefinition c.span)
    match ctx.has_failed with
    | .error e => .error e
    | .ok _ => .ok ctx
  else
    match c.value.eval ctx.constants with
    | .ok v => .ok { ctx with constants := ctx.constants ++ [(c.name, v)] }
    | .error e =>
      let ctx := ctx.error e
      match ctx.has_failed with
      | .error e' => .error e'
      | .ok _ => .ok ctx

/-- Modelled from the spec: `Module::define_import` — `local_name` is
unique within a module; a duplicate is an `ImportConflict` (§3). -/
def Module.define_import (m : Module) (i : Import) :
    Except SemanticAnalysisError Module :=
  if m.imports.any (fun j => j.local_name == i.local_name) then
    .error (.ImportConflict i.span)
  else
    .ok { m with imports := m.imports ++ [i] }

/-- Modelled from the spec: `Module::define_procedure` — procedure names
are unique within a module; a duplicate is a `SymbolConflict` (§3). -/
def Module.define_procedure (m : Module) (e : Export) :
    Except SemanticAnalysisError Module :=
  if m.procedures.any (fun p => p.name == e.name) then
    .error (.SymbolConflict e.span)
  else
    .ok { m with procedures := m.procedures ++ [e] }

/-- Modelled from the spec: `resolve_import_mut` — look an import up by its
local name (§4.3 "Alias resolution"). -/
def Module.resolve_import (m : Module) (name : Ident) : Option Import :=
  m.imports.find? (fun i => decide (i.local_name = name))

/-- Increment `uses` on an import when its local name matches. -/
def bump_import (name : Ident) (i : Import) : Import :=
  if i.local_name = name then { i with uses := i.uses + 1 } else i

/-- Increment `uses` on the import with the given local name, as done
through the `&mut Import` returned by `resolve_import_mut`. -/
def Module.mark_import_used (m : Module) (name : Ident) : Module :=
  { m with imports := m.imports.map (bump_import name) }

/-- The identity of an import apart from its use count: local name and
fully-qualified path.  The procedure passes may only bump use counts, so
this data is invariant under them. -/
def import_key (i : Import) : Ident × LibraryPath :=
  (i.local_name, i.path)

def Module.import_keys (m : Module) : List (Ident × LibraryPath) :=
  m.imports.map import_key

/-- The key of the import a local name resolves to, if any. -/
def Module.resolve_key (m : Module) (name : Ident) :
    Option (Ident × LibraryPath) :=
  (m.resolve_import name).map import_key

/-- The use count of the import a local name resolves to (0 if none). -/
def Module.uses_of (m : Module) (name : Ident) : Nat :=
  ((m.resolve_import name).map (fun i => i.uses)).getD 0

/-- The form stream consumed by `analyze` (§3 "Form"). -/
inductive Form
  | ModuleDoc (d : DocString)
  | Doc (d : DocString)
  | Constant (c : Constant)
  | Import (i : Import)
  | Procedure (e : Export)
  | Begin (body : List Instruction) (span : Span)
deriving DecidableEq, Repr

/-- Result of a run of the analyzer: success, accumulated diagnostics, or a
failed `assert!` (a programmer-error abort, not a diagnostic). -/
inductive SemaResult (α : Type)
  | ok (a : α)
  | error (e : SyntaxError)
  | panic (msg : String)
deriving DecidableEq, Repr

def SemaResult.is_error {α : Type} : SemaResult α → Bool
  | .error _ => true
  | _ => false

/-- The diagnostic list carried by a failing analyzer run ([] otherwise). -/
def SemaResult.error_diagnostics {α : Type} : SemaResult α → List Diagnostic
  | .error se => se.diagnostics
  | _ => []

instance {ε α : Type} [DecidableEq ε] [DecidableEq α] :
    DecidableEq (Except ε α) := fun a b =>
  match a, b with
  | .error e1, .error e2 =>
    if h : e1 = e2 then .isTrue (by rw [h])
    else .isFalse (fun hx => h (by injection hx))
  | .ok a1, .ok a2 =>
    if h : a1 = a2 then .isTrue (by rw [h])
    else .isFalse (fun hx => h (by injection hx))
  | .error _, .ok _ => .isFalse (fun hx => Except.noConfusion hx)
  | .ok _, .error _ => .isFalse (fun hx => Except.noConfusion hx)

-- ==========================================================================
-- Semantic analysis: procedure passes (C3)
-- ==========================================================================

/-- Modelled from the spec: rewrite of one named immediate by the
const-eval visitor — a reference to a defined constant becomes its value;
an unresolved name is reported (§4.3 "ConstEvalVisitor"). -/
def const_eval_imm (ctx : AnalysisContext) (imm : Immediate) :
    AnalysisContext × Immediate :=
  match imm with
  | .value v => (ctx, .value v)
  | .name id sp =>
    match ctx.constants.lookup id with
    | some v => (ctx, .value v)
    | none => (ctx.error (.UnresolvedConstant sp), .name id sp)

/-- Modelled from the spec: the const-eval walk over one instruction. -/
def const_eval_inst (ctx : AnalysisContext) (inst : Instruction) :
    AnalysisContext × Instruction :=
  match inst with
  | .push imm =>
    let r := const_eval_imm ctx imm
    (r.1, .push r.2)
  | other => (ctx, other)

/-- Modelled from the spec: the const-eval walk over a body, in order. -/
def const_eval_body (ctx : AnalysisContext) :
    List Instruction → AnalysisContext × List Instruction
  | [] => (ctx, [])
  | inst :: rest =>
    let r1 := const_eval_inst ctx inst
    let r2 := const_eval_body r1.1 rest
    (r2.1, r1.2 :: r2.2)

/-- Modelled from the spec: `ConstEvalVisitor::visit_mut_procedure` —
rewrites the body's named immediates, leaving everything else intact. -/
def const_eval_procedure (ctx : AnalysisContext) (p : Procedure) :
    AnalysisContext × Procedure :=
  let r := const_eval_body ctx p.body
  (r.1, { p with body := r.2 })

/-- Modelled from the spec: callee resolution of `VerifyInvokeTargets`
(§4.3): an absolute path whose prefix equals the module's path is local; a
short prefix matching an import's `local_name` is rewritten to the
fully-qualified path and marks the import used; a bare name must be a local
procedure; otherwise `MissingImport` at the callee span. -/
def resolve_invoke_target (ctx : AnalysisContext) (m : Module)
    (locals : List Ident) (t : InvocationTarget) :
    AnalysisContext × Module × InvocationTarget :=
  match t with
  | .AbsoluteProcedurePath path name sp =>
    if path = m.path then
      (ctx, m, .ProcedureName name sp)
    else
      (ctx, m, .AbsoluteProcedurePath path name sp)
  | .ProcedurePath tgt =>
    match m.resolve_import tgt.module.ns with
    | some imp =>
      (ctx, m.mark_import_used tgt.module.ns,
        .ProcedurePath { tgt with module := imp.path })
    | none => (ctx.error (.MissingImport tgt.span), m, .ProcedurePath tgt)
  | .ProcedureName name sp =>
    if locals.contains name then
      (ctx, m, .ProcedureName name sp)
    else
      (ctx.error (.MissingImport sp), m, .ProcedureName name sp)

/-- Modelled from the spec: the invoke-target walk over one instruction;
in a Kernel module `call` and `syscall` are reported as errors (§4.3
rule 1) and left unresolved. -/
def verify_invoke_inst (is_kernel : Bool) (ctx : AnalysisContext)
    (m : Module) (locals : List Ident) (inst : Instruction) :
    AnalysisContext × Module × Instruction :=
  match inst with
  | .exec t =>
    let r := resolve_invoke_target ctx m locals t
    (r.1, r.2.1, .exec r.2.2)
  | .call t =>
    if is_kernel then
      (ctx.error (.CallInKernel t.span), m, .call t)
    else
      let r := resolve_invoke_target ctx m locals t
      (r.1, r.2.1, .call r.2.2)
  | .syscall t =>
    if is_kernel then
      (ctx.error (.CallInKernel t.span), m, .syscall t)
    else
      let r := resolve_invoke_target ctx m locals t
      (r.1, r.2.1, .syscall r.2.2)
  | other => (ctx, m, other)

/-- Modelled from the spec: the invoke-target walk over a body, in order. -/
def verify_invoke_body (is_kernel : Bool) (ctx : AnalysisContext)
    (m : Module) (locals : List Ident) :
    List Instruction → AnalysisContext × Module × List Instruction
  | [] => (ctx, m, [])
  | inst :: rest =>
    let r1 := verify_invoke_inst is_kernel ctx m locals inst
    let r2 := verify_invoke_body is_kernel r1.1 r1.2.1 locals rest
    (r2.1, r2.2.1, r1.2.2 :: r2.2.2)

/-- Modelled from the spec: `VerifyInvokeTargets::visit_mut_procedure` —
walks the body resolving callees against the local names and the module's
imports, incrementing `uses` on resolution through an import. -/
def verify_invoke_procedure (is_kernel : Bool) (ctx : AnalysisContext)
    (m : Module) (locals : List Ident) (p : Procedure) :
    AnalysisContext × Module × Procedure :=
  let r := verify_invoke_body is_kernel ctx m locals p.body
  (r.1, r.2.1, { p with body := r.2.2 })

/-- The alias branch of the `visit_procedures` loop: resolve the
underlying import of a non-absolute alias and expand the target to its
fully-qualified path, marking the backing import used; a missing import is
reported against the alias's span. -/
def alias_step (ctx : AnalysisContext) (m : Module) (a : ProcAlias) :
    AnalysisContext × Module × ProcAlias :=
  if a.is_absolute then (ctx, m, a)
  else
    match a.target with
    | .ProcedurePath tgt =>
      match m.resolve_import tgt.module.ns with
      | some imp =>
        (ctx, m.mark_import_used tgt.module.ns,
          { a with target := .ProcedurePath { tgt with module := imp.path } })
      | none => (ctx.error (.MissingImport a.span), m, a)

/-- The body of the `while let Some(procedure) = procedures.pop_front()`
loop of `visit_procedures`: the kernel visibility rewrite, the const-eval
pass, the invoke-target pass, and alias resolution, pushing each processed
export back onto the module. -/
def visit_loop (is_kernel : Bool) (locals : List Ident)
    (ctx : AnalysisContext) (m : Module) :
    List Export → Module × AnalysisContext
  | [] => (m, ctx)
  | .Procedure p :: rest =>
    -- Rewrite visibility for exported kernel procedures
    let p1 :=
      if is_kernel && decide (p.visibility = Visibility.Public) then
        p.set_visibility .Syscall
      else p
    -- Evaluate all named immediates to their concrete values
    let ce := const_eval_procedure ctx p1
    -- Next, verify invoke targets
    let vi := verify_invoke_procedure is_kernel ce.1 m locals ce.2
    visit_loop is_kernel locals vi.1
      { vi.2.1 with procedures := vi.2.1.procedures ++ [.Procedure vi.2.2] }
      rest
  | .Alias a :: rest =>
    -- Resolve the underlying import, and expand the target to its
    -- fully-qualified path.
    visit_loop is_kernel locals (alias_step ctx m a).1
      { (alias_step ctx m a).2.1 with
        procedures := (alias_step ctx m a).2.1.procedures
          ++ [.Alias (alias_step ctx m a).2.2] }
      rest

/-- `visit_procedures`: apply the transformation and analysis passes to
every procedure of the module, in module order. -/
def visit_procedures (m : Module) (ctx : AnalysisContext) :
    Module × AnalysisContext :=
  visit_loop m.is_kernel (m.procedures.map (fun e => e.name)) ctx
    { m with procedures := [] } m.procedures

-- ==========================================================================
-- Semantic analysis: module assembly (C2)
-- ==========================================================================

/-- `define_import`: on `ImportConflict` record the error and continue; on
any other definition error record it and gate via `has_failed()`. -/
def define_import (i : Import) (m : Module) (ctx : AnalysisContext) :
    Except SyntaxError (Module × AnalysisContext) :=
  match m.define_import i with
  | .ok m' => .ok (m', ctx)
  | .error err =>
    match err with
    | .ImportConflict sp =>
      -- Proceed anyway, to try and capture more errors
      .ok (m, ctx.error (.ImportConflict sp))
    | err =>
      -- We can't proceed without producing a bunch of errors
      match (ctx.error err).has_failed with
      | .error e => .error e
      | .ok _ => .ok (m, ctx.error err)

/-- `define_procedure`: on `SymbolConflict` record the error and continue;
on any other definition error record it and gate via `has_failed()`; in
either surviving case the procedure's name is registered. -/
def define_procedure (e : Export) (m : Module) (ctx : AnalysisContext) :
    Except SyntaxError (Module × AnalysisContext) :=
  match
    (match m.define_procedure e with
     | .ok m' => .ok (m', ctx)
     | .error err =>
       match err with
       | .SymbolConflict sp =>
         -- Proceed anyway, to try and capture more errors
         .ok (m, ctx.error (.SymbolConflict sp))
       | err =>
         -- We can't proceed without producing a bunch of errors
         match (ctx.error err).has_failed with
         | .error e' => .error e'
         | .ok _ => .ok (m, ctx.error err) :
      Except SyntaxError (Module × AnalysisContext))
  with
  | .error e' => .error e'
  | .ok (m', ctx') => .ok (m', ctx'.register_procedure_name e.name)

/-- The `while let Some(form) = forms.pop_front()` loop of `analyze`,
carrying the one-slot pending-docstring buffer. -/
def analyze_forms (ctx : AnalysisContext) (m : Module)
    (docs : Option DocString) :
    List Form → SemaResult (AnalysisContext × Module × Option DocString)
  | [] => .ok (ctx, m, docs)
  | form :: rest =>
    match form with
    | .ModuleDoc d =>
      if docs.isSome then
        .panic "assertion failed: docs.is_none()"
      else
        analyze_forms ctx (m.set_docs (some d)) docs rest
    | .Doc d =>
      match docs with
      | some unused =>
        analyze_forms (ctx.error (.UnusedDocstring unused.span)) m (some d) rest
      | none => analyze_forms ctx m (some d) rest
    | .Constant c =>
      match ctx.define_constant (c.with_docs docs) with
      | .error e => .error e
      | .ok ctx' => analyze_forms ctx' m none rest
    | .Import i =>
      let ctx :=
        match docs with
        | some d => ctx.error (.ImportDocstring d.span)
        | none => ctx
      match define_import i m ctx with
      | .error e => .error e
      | .ok (m', ctx') => analyze_forms ctx' m' none rest
    | .Procedure e =>
      match e with
      | .Alias _ =>
        match m.kind with
        | .Kernel =>
          analyze_forms (ctx.error (.ReexportFromKernel e.span)) m none rest
        | .Executable =>
          analyze_forms (ctx.error (.UnexpectedExport e.span)) m none rest
        | .Library =>
          match define_procedure (e.with_docs docs) m ctx with
          | .error e' => .error e'
          | .ok (m', ctx') => analyze_forms ctx' m' none rest
      | .Procedure _ =>
        if m.kind = ModuleKind.Executable && e.visibility.is_exported
            && !e.is_main then
          analyze_forms (ctx.error (.UnexpectedExport e.span)) m none rest
        else
          match define_procedure (e.with_docs docs) m ctx with
          | .error e' => .error e'
          | .ok (m', ctx') => analyze_forms ctx' m' none rest
    | .Begin body sp =>
      match m.kind with
      | .Executable =>
        let procedure : Procedure :=
          { span := sp, visibility := .Public, name := "main",
            num_locals := 0, body := body, docs := docs }
        match define_procedure (.Procedure procedure) m ctx with
        | .error e' => .error e'
        | .ok (m', ctx') => analyze_forms ctx' m' none rest
      | _ =>
        analyze_forms (ctx.error (.UnexpectedEntrypoint sp)) m none rest

/-- The end-of-forms docstring check of `analyze`: a still-buffered
docstring is reported as `UnusedDocstring`. -/
def analyze_docs_check (ctx : AnalysisContext) (docs : Option DocString) :
    AnalysisContext :=
  match docs with
  | some unused => ctx.error (.UnusedDocstring unused.span)
  | none => ctx

/-- The entry-point check of `analyze`: an Executable without an entry
point reports `MissingEntrypoint`. -/
def analyze_entry_check (ctx : AnalysisContext) (m : Module) :
    AnalysisContext :=
  if m.kind = ModuleKind.Executable && !m.has_entrypoint then
    ctx.error .MissingEntrypoint
  else ctx

/-- The tail of `analyze` after the form loop and the post-loop checks:
gate via `has_failed()`, run the procedure checks, report unused imports,
and surface the final result. -/
def analyze_finish (ctx : AnalysisContext) (m : Module) : SemaResult Module :=
  match ctx.has_failed with
  | .error e => .error e
  | .ok _ =>
    -- Run procedure checks, then check unused imports
    match
      ((visit_procedures m ctx).1.imports.foldl
        (fun c i => if !i.is_used then c.error (.UnusedImport i.span) else c)
        (visit_procedures m ctx).2).into_result with
    | .error e => .error e
    | .ok _ => .ok (visit_procedures m ctx).1

/-- `analyze(source, kind, path, forms, warnings_as_errors)`: construct and
validate a module from the forms constituting its body. -/
def analyze (kind : ModuleKind) (path : LibraryPath) (forms : List Form)
    (warnings_as_errors : Bool) : SemaResult Module :=
  match analyze_forms (AnalysisContext.new warnings_as_errors)
      (Module.new kind path) none forms with
  | .panic msg => .panic msg
  | .error e => .error e
  | .ok (ctx, m, docs) =>
    analyze_finish (analyze_entry_check (analyze_docs_check ctx docs) m) m

-- ==========================================================================
-- Processor: data model
-- ==========================================================================

/-- Modelled from the spec: the order of the base prime field of the VM
(the Goldilocks prime used by the underlying field library). -/
def P : Nat := 2 ^ 64 - 2 ^ 32 + 1

/-- Modelled from the spec: canonical bound of a u32 stack value (§4.5). -/
def W32 : Nat := 2 ^ 32

/-- `MIN_STACK_DEPTH` from `vm_core::stack`. -/
def MIN_STACK_DEPTH : Nat := 16

def fadd (a b : Nat) : Nat := (a + b) % P

def fmul (a b : Nat) : Nat := (a * b) % P

def fneg (a : Nat) : Nat := (P - a % P) % P

/-- Modelled from the spec: multiplicative inverse in the prime field via
Fermat's little theorem; only ever applied to nonzero values. -/
def finv (a : Nat) : Nat := (a % P) ^ (P - 2) % P

/-- Modelled from the spec: the closed taxonomy of execution errors (§7);
`NotBinaryValue` is the failure for logical operations on non-0/1 inputs,
which §4.5 mandates without naming. -/
inductive ExecutionError
  | FailedAssertion (code : Nat)
  | DivisionByZero
  | NotU32Value (v : Nat)
  | NotBinaryValue (v : Nat)
  | AdviceStackEmpty
  | MerklePathVerificationFailed (code : Nat)
  | MemoryAddressOutOfRange
  | CycleLimitExceeded
  | StackUnderflow
deriving DecidableEq, Repr

/-- The exhaustive operation set of the dispatcher, with exactly the
variants matched by `execute_op`. -/
inductive Operation
  | Noop
  | Assert (err_code : Nat)
  | FmpAdd
  | FmpUpdate
  | SDepth
  | Caller
  | Clk
  | Emit (event_id : Nat)
  | Join
  | Split
  | Loop
  | Call
  | SysCall
  | Dyn
  | Dyncall
  | Span
  | Repeat
  | Respan
  | End
  | Halt
  | Add
  | Neg
  | Mul
  | Inv
  | Incr
  | And
  | Or
  | Not
  | Eq
  | Eqz
  | Expacc
  | Ext2Mul
  | U32split
  | U32add
  | U32add3
  | U32sub
  | U32mul
  | U32madd
  | U32div
  | U32and
  | U32xor
  | U32assert2 (err_code : Nat)
  | Pad
  | Drop
  | Dup0
  | Dup1
  | Dup2
  | Dup3
  | Dup4
  | Dup5
  | Dup6
  | Dup7
  | Dup9
  | Dup11
  | Dup13
  | Dup15
  | Swap
  | SwapW
  | SwapW2
  | SwapW3
  | SwapDW
  | MovUp2
  | MovUp3
  | MovUp4
  | MovUp5
  | MovUp6
  | MovUp7
  | MovUp8
  | MovDn2
  | MovDn3
  | MovDn4
  | MovDn5
  | MovDn6
  | MovDn7
  | MovDn8
  | CSwap
  | CSwapW
  | Push (value : Nat)
  | AdvPop
  | AdvPopW
  | MLoadW
  | MStoreW
  | MLoad
  | MStore
  | MStream
  | Pipe
  | HPerm
  | MpVerify (err_code : Nat)
  | MrUpdate
  | FriE2F4
  | HornerBase
  | HornerExt
deriving Repr

/-- Injective numeric encoding of operations (constructor index paired
with the immediate payload), used to decide equality. -/
def Operation.toCode : Operation → Nat × Nat
  | .Noop => (0, 0)
  | .Assert c => (1, c)
  | .FmpAdd => (2, 0)
  | .FmpUpdate => (3, 0)
  | .SDepth => (4, 0)
  | .Caller => (5, 0)
  | .Clk => (6, 0)
  | .Emit i => (7, i)
  | .Join => (8, 0)
  | .Split => (9, 0)
  | .Loop => (10, 0)
  | .Call => (11, 0)
  | .SysCall => (12, 0)
  | .Dyn => (13, 0)
  | .Dyncall => (14, 0)
  | .Span => (15, 0)
  | .Repeat => (16, 0)
  | .Respan => (17, 0)
  | .End => (18, 0)
  | .Halt => (19, 0)
  | .Add => (20, 0)
  | .Neg => (21, 0)
  | .Mul => (22, 0)
  | .Inv => (23, 0)
  | .Incr => (24, 0)
  | .And => (25, 0)
  | .Or => (26, 0)
  | .Not => (27, 0)
  | .Eq => (28, 0)
  | .Eqz => (29, 0)
  | .Expacc => (30, 0)
  | .Ext2Mul => (31, 0)
  | .U32split => (32, 0)
  | .U32add => (33, 0)
  | .U32add3 => (34, 0)
  | .U32sub => (35, 0)
  | .U32mul => (36, 0)
  | .U32madd => (37, 0)
  | .U32div => (38, 0)
  | .U32and => (39, 0)
  | .U32xor => (40, 0)
  | .U32assert2 c => (41, c)
  | .Pad => (42, 0)
  | .Drop => (43, 0)
  | .Dup0 => (44, 0)
  | .Dup1 => (45, 0)
  | .Dup2 => (46, 0)
  | .Dup3 => (47, 0)
  | .Dup4 => (48, 0)
  | .Dup5 => (49, 0)
  | .Dup6 => (50, 0)
  | .Dup7 => (51, 0)
  | .Dup9 => (52, 0)
  | .Dup11 => (53, 0)
  | .Dup13 => (54, 0)
  | .Dup15 => (55, 0)
  | .Swap => (56, 0)
  | .SwapW => (57, 0)
  | .SwapW2 => (58, 0)
  | .SwapW3 => (59, 0)
  | .SwapDW => (60, 0)
  | .MovUp2 => (61, 0)
  | .MovUp3 => (62, 0)
  | .MovUp4 => (63, 0)
  | .MovUp5 => (64, 0)
  | .MovUp6 => (65, 0)
  | .MovUp7 => (66, 0)
  | .MovUp8 => (67, 0)
  | .MovDn2 => (68, 0)
  | .MovDn3 => (69, 0)
  | .MovDn4 => (70, 0)
  | .MovDn5 => (71, 0)
  | .MovDn6 => (72, 0)
  | .MovDn7 => (73, 0)
  | .MovDn8 => (74, 0)
  | .CSwap => (75, 0)
  | .CSwapW => (76, 0)
  | .Push v => (77, v)
  | .AdvPop => (78, 0)
  | .AdvPopW => (79, 0)
  | .MLoadW => (80, 0)
  | .MStoreW => (81, 0)
  | .MLoad => (82, 0)
  | .MStore => (83, 0)
  | .MStream => (84, 0)
  | .Pipe => (85, 0)
  | .HPerm => (86, 0)
  | .MpVerify c => (87, c)
  | .MrUpdate => (88, 0)
  | .FriE2F4 => (89, 0)
  | .HornerBase => (90, 0)
  | .HornerExt => (91, 0)

/-- Left inverse of `Operation.toCode`. -/
def Operation.fromCode (c : Nat × Nat) : Operation :=
  match c with
  | (0, _) => .Noop
  | (1, x) => .Assert x
  | (2, _) => .FmpAdd
  | (3, _) => .FmpUpdate
  | (4, _) => .SDepth
  | (5, _) => .Caller
  | (6, _) => .Clk
  | (7, x) => .Emit x
  | (8, _) => .Join
  | (9, _) => .Split
  | (10, _) => .Loop
  | (11, _) => .Call
  | (12, _) => .SysCall
  | (13, _) => .Dyn
  | (14, _) => .Dyncall
  | (15, _) => .Span
  | (16, _) => .Repeat
  | (17, _) => .Respan
  | (18, _) => .End
  | (19, _) => .Halt
  | (20, _) => .Add
  | (21, _) => .Neg
  | (22, _) => .Mul
  | (23, _) => .Inv
  | (24, _) => .Incr
  | (25, _) => .And
  | (26, _) => .Or
  | (27, _) => .Not
  | (28, _) => .Eq
  | (29, _) => .Eqz
  | (30, _) => .Expacc
  | (31, _) => .Ext2Mul
  | (32, _) => .U32split
  | (33, _) => .U32add
  | (34, _) => .U32add3
  | (35, _) => .U32sub
  | (36, _) => .U32mul
  | (37, _) => .U32madd
  | (38, _) => .U32div
  | (39, _) => .U32and
  | (40, _) => .U32xor
  | (41, x) => .U32assert2 x
  | (42, _) => .Pad
  | (43, _) => .Drop
  | (44, _) => .Dup0
  | (45, _) => .Dup1
  | (46, _) => .Dup2
  | (47, _) => .Dup3
  | (48, _) => .Dup4
  | (49, _) => .Dup5
  | (50, _) => .Dup6
  | (51, _) => .Dup7
  | (52, _) => .Dup9
  | (53, _) => .Dup11
  | (54, _) => .Dup13
  | (55, _) => .Dup15
  | (56, _) => .Swap
  | (57, _) => .SwapW
  | (58, _) => .SwapW2
  | (59, _) => .SwapW3
  | (60, _) => .SwapDW
  | (61, _) => .MovUp2
  | (62, _) => .MovUp3
  | (63, _) => .MovUp4
  | (64, _) => .MovUp5
  | (65, _) => .MovUp6
  | (66, _) => .MovUp7
  | (67, _) => .MovUp8
  | (68, _) => .MovDn2
  | (69, _) => .MovDn3
  | (70, _) => .MovDn4
  | (71, _) => .MovDn5
  | (72, _) => .MovDn6
  | (73, _) => .MovDn7
  | (74, _) => .MovDn8
  | (75, _) => .CSwap
  | (76, _) => .CSwapW
  | (77, x) => .Push x
  | (78, _) => .AdvPop
  | (79, _) => .AdvPopW
  | (80, _) => .MLoadW
  | (81, _) => .MStoreW
  | (82, _) => .MLoad
  | (83, _) => .MStore
  | (84, _) => .MStream
  | (85, _) => .Pipe
  | (86, _) => .HPerm
  | (87, x) => .MpVerify x
  | (88, _) => .MrUpdate
  | (89, _) => .FriE2F4
  | (90, _) => .HornerBase
  | (91, _) => .HornerExt
  | _ => .Noop

instance : DecidableEq Operation := fun a b =>
  if h : a.toCode = b.toCode then
    .isTrue (by
      have ha : Operation.fromCode a.toCode = a := by cases a <;> rfl
      have hb : Operation.fromCode b.toCode = b := by cases b <;> rfl
      rw [← ha, ← hb, h])
  else
    .isFalse (fun hab => h (by rw [hab]))

/-- The control-flow operations: declared but never dispatched by
`execute_op` (consumed by the decoder instead). -/
def Operation.is_control_flow : Operation → Bool
  | .Join | .Split | .Loop | .Call | .SysCall | .Dyn | .Dyncall
  | .Span | .Repeat | .Respan | .End | .Halt => true
  | _ => false

/-- Ghost journal of component-method invocations performed by one call to
`execute_op`, used to state its ordering contract observationally. -/
inductive TraceEvent
  | ensureCapSystem
  | ensureCapStack
  | opTransition (op : Operation)
  | advClockSystem
  | advClockStack
deriving DecidableEq, Repr

/-- Modelled from the spec: the host capability set (§4.6) — advice stack,
event sink, and a store of Merkle facts `[root, depth, index, node]` that
the host can authenticate. -/
structure Host where
  advice_stack : List Nat
  events : List Nat
  merkle_store : List (List Nat)
deriving DecidableEq, Repr

/-- Modelled from the spec: the system component (§4.4) — free-memory
pointer, clock, caller context, and its trace-row buffer capacity. -/
structure SystemState where
  clk : Nat
  fmp : Nat
  caller : Nat
  trace_capacity : Nat
deriving DecidableEq, Repr

/-- Modelled from the spec: grow the system trace buffer if needed so the
trace can accommodate a new clock cycle (§4.4). -/
def SystemState.ensure_trace_capacity (s : SystemState) : SystemState :=
  if s.trace_capacity ≤ s.clk + 1 then { s with trace_capacity := s.clk + 2 }
  else s

/-- Modelled from the spec: `advance_clock(max)` increments the clock,
failing with `CycleLimitExceeded` past `max` (§4.4). -/
def SystemState.advance_clock (s : SystemState) (max : Nat) :
    Except ExecutionError SystemState :=
  if max < s.clk + 1 then .error .CycleLimitExceeded
  else .ok { s with clk := s.clk + 1 }

/-- Modelled from the spec: the operand-stack component (§4.4) — current
elements (top first, logically zero beyond the stored list), the committed
trace rows (one per cycle), and the row-buffer capacity. -/
structure StackState where
  elems : List Nat
  trace : List (List Nat)
  trace_capacity : Nat
deriving DecidableEq, Repr

/-- Modelled from the spec: grow the stack trace buffer if needed (§4.4). -/
def StackState.ensure_trace_capacity (s : StackState) : StackState :=
  if s.trace_capacity ≤ s.trace.length then
    { s with trace_capacity := s.trace.length + 1 }
  else s

/-- Modelled from the spec: the stack's clock advance commits the row for
the completed cycle — one trace row per `execute_op` (§5). -/
def StackState.advance_clock (s : StackState) : StackState :=
  { s with trace := s.trace ++ [s.elems] }

/-- Modelled from the spec: `copy_state(start_pos)` copies the current
stack state into the next trace row from `start_pos` on; rows are committed
by `advance_clock` in this model, so the operand stack is unchanged. -/
def stack_copy_state (elems : List Nat) (_start_pos : Nat) : List Nat :=
  elems

/-- Modelled from the spec: the decoder component (§4.4) — it accumulates a
structured trace of executed blocks; row count and row-buffer capacity. -/
structure DecoderState where
  trace_rows : Nat
  trace_capacity : Nat
deriving DecidableEq, Repr

/-- Modelled from the spec: the decoder's own `ensure_trace_capacity`
(§4.4 says all components expose one); `execute_op` never calls it. -/
def DecoderState.ensure_trace_capacity (d : DecoderState) : DecoderState :=
  if d.trace_capacity ≤ d.trace_rows then
    { d with trace_capacity := d.trace_rows + 1 }
  else d

/-- The process state (§3 "Process"): system, stack, memory, decoder, the
cycle bound, and the ghost event journal. -/
structure Process where
  system : SystemState
  stack : StackState
  memory : List (Nat × Nat)
  decoder : DecoderState
  max_cycles : Nat
  log : List TraceEvent
deriving DecidableEq, Repr

/-- Result of one dispatched operation: a new process and host, an
execution error, or a panic (`unreachable!`). -/
inductive StepResult
  | ok (p : Process) (h : Host)
  | error (e : ExecutionError)
  | panic (msg : String)
deriving DecidableEq, Repr

def StepResult.is_ok : StepResult → Bool
  | .ok _ _ => true
  | _ => false

/-- Project the process out of a successful step (with a default). -/
def StepResult.the_process (r : StepResult) (default : Process) : Process :=
  match r with
  | .ok p _ => p
  | _ => default

/-- Project the host out of a successful step (with a default). -/
def StepResult.the_host (r : StepResult) (default : Host) : Host :=
  match r with
  | .ok _ h => h
  | _ => default

-- ==========================================================================
-- Processor: operation handlers
-- ==========================================================================

/-- Modelled from the spec: the state visible to an operation handler —
every handler's result is a pure function of prior stack/memory state plus
host-provided values (§4.5); the clock and caller context are read-only. -/
structure OpEffect where
  elems : List Nat
  memory : List (Nat × Nat)
  fmp : Nat
  caller : Nat
  clk : Nat
  advice_stack : List Nat
  events : List Nat
  merkle_store : List (List Nat)
deriving DecidableEq, Repr

abbrev OpHandler := OpEffect → Except ExecutionError OpEffect

/-- Pad a stack back up to the enforced minimum depth with logical zeros
after a net pop (§4.4: deeper positions are logically zero). -/
def pad16 (l : List Nat) : List Nat :=
  l ++ List.replicate (MIN_STACK_DEPTH - l.length) 0

def stack_get (l : List Nat) (i : Nat) : Nat := l.getD i 0

def mem_read (mem : List (Nat × Nat)) (addr : Nat) : Nat :=
  (mem.lookup addr).getD 0

def mem_write (mem : List (Nat × Nat)) (addr v : Nat) : List (Nat × Nat) :=
  (addr, v) :: mem.filter (fun kv => decide (kv.1 ≠ addr))

/-- `Operation::Noop => self.stack.copy_state(0)`. -/
def op_noop : OpHandler := fun eff =>
  .ok { eff with elems := stack_copy_state eff.elems 0 }

/-- Modelled from the spec: the top must be 1, else
`FailedAssertion(code)`; the checked value is popped (§4.5). -/
def op_assert (code : Nat) : OpHandler := fun eff =>
  if stack_get eff.elems 0 = 1 then
    .ok { eff with elems := pad16 (eff.elems.drop 1) }
  else
    .error (.FailedAssertion code)

/-- Modelled from the spec: `FmpAdd` adds the free-memory pointer to the
top of the stack. -/
def op_fmpadd : OpHandler := fun eff =>
  .ok { eff with
    elems := fadd (stack_get eff.elems 0) eff.fmp :: eff.elems.drop 1 }

/-- Modelled from the spec: `FmpUpdate` pops the top and adds it to the
free-memory pointer. -/
def op_fmpupdate : OpHandler := fun eff =>
  .ok { eff with fmp := fadd eff.fmp (stack_get eff.elems 0),
                 elems := pad16 (eff.elems.drop 1) }

/-- Modelled from the spec: `SDepth` pushes the current stack depth. -/
def op_sdepth : OpHandler := fun eff =>
  .ok { eff with elems := eff.elems.length % P :: eff.elems }

/-- Modelled from the spec: `Caller` pushes the caller context. -/
def op_caller : OpHandler := fun eff =>
  .ok { eff with elems := eff.caller :: eff.elems }

/-- Modelled from the spec: `Clk` pushes the current clock value. -/
def op_clk : OpHandler := fun eff =>
  .ok { eff with elems := eff.clk % P :: eff.elems }

/-- Modelled from the spec: `Emit(id)` forwards the event to the host; the
stack is copied unchanged. -/
def op_emit (event_id : Nat) : OpHandler := fun eff =>
  .ok { eff with events := eff.events ++ [event_id],
                 elems := stack_copy_state eff.elems 0 }

/-- Field addition of the top two elements (§4.5). -/
def op_add : OpHandler := fun eff =>
  .ok { eff with
    elems := pad16 (fadd (stack_get eff.elems 1) (stack_get eff.elems 0)
      :: eff.elems.drop 2) }

/-- Field negation of the top element (§4.5). -/
def op_neg : OpHandler := fun eff =>
  .ok { eff with elems := fneg (stack_get eff.elems 0) :: eff.elems.drop 1 }

/-- Field multiplication of the top two elements (§4.5). -/
def op_mul : OpHandler := fun eff =>
  .ok { eff with
    elems := pad16 (fmul (stack_get eff.elems 1) (stack_get eff.elems 0)
      :: eff.elems.drop 2) }

/-- Field inversion of the top element; fails on zero with
`DivisionByZero` (§4.5). -/
def op_inv : OpHandler := fun eff =>
  if stack_get eff.elems 0 % P = 0 then .error .DivisionByZero
  else .ok { eff with elems := finv (stack_get eff.elems 0) :: eff.elems.drop 1 }

/-- Increment of the top element (§4.5). -/
def op_incr : OpHandler := fun eff =>
  .ok { eff with elems := fadd (stack_get eff.elems 0) 1 :: eff.elems.drop 1 }

/-- Logical AND of the top two elements; inputs must be 0 or 1 (§4.5). -/
def op_and : OpHandler := fun eff =>
  let a := stack_get eff.elems 0
  let b := stack_get eff.elems 1
  if 1 < a then .error (.NotBinaryValue a)
  else if 1 < b then .error (.NotBinaryValue b)
  else .ok { eff with elems := pad16 (a * b :: eff.elems.drop 2) }

/-- Logical OR of the top two elements; inputs must be 0 or 1 (§4.5). -/
def op_or : OpHandler := fun eff =>
  let a := stack_get eff.elems 0
  let b := stack_get eff.elems 1
  if 1 < a then .error (.NotBinaryValue a)
  else if 1 < b then .error (.NotBinaryValue b)
  else .ok { eff with elems := pad16 ((a + b - a * b) :: eff.elems.drop 2) }

/-- Logical NOT of the top element; the input must be 0 or 1 (§4.5). -/
def op_not : OpHandler := fun eff =>
  let a := stack_get eff.elems 0
  if 1 < a then .error (.NotBinaryValue a)
  else .ok { eff with elems := (1 - a) :: eff.elems.drop 1 }

/-- Equality of the top two elements, as 0 or 1 (§4.5). -/
def op_eq : OpHandler := fun eff =>
  let a := stack_get eff.elems 0
  let b := stack_get eff.elems 1
  .ok { eff with
    elems := pad16 ((if a % P = b % P then 1 else 0) :: eff.elems.drop 2) }

/-- Zero test of the top element, as 0 or 1 (§4.5). -/
def op_eqz : OpHandler := fun eff =>
  let a := stack_get eff.elems 0
  .ok { eff with elems := (if a % P = 0 then 1 else 0) :: eff.elems.drop 1 }

/-- Modelled from the spec: `Expacc` performs one bit-by-bit exponent
accumulation step on the top four elements `[bit, base, acc, exp]`. -/
def op_expacc : OpHandler := fun eff =>
  let base := stack_get eff.elems 1
  let acc := stack_get eff.elems 2
  let exp := stack_get eff.elems 3
  let bit := exp % 2
  .ok { eff with
    elems := bit :: fmul base base
      :: fmul acc (if bit = 1 then base else 1) :: exp / 2
      :: eff.elems.drop 4 }

/-- Modelled from the spec: multiplication in the quadratic extension of
the base field (over `x ^ 2 - x - 1`); operands `(a0, a1)` and `(b0, b1)`
sit in stack positions 3, 2, 1, 0 and the product replaces positions 3, 2. -/
def op_ext2mul : OpHandler := fun eff =>
  let b1 := stack_get eff.elems 0
  let b0 := stack_get eff.elems 1
  let a1 := stack_get eff.elems 2
  let a0 := stack_get eff.elems 3
  let c0 := fadd (fmul a0 b0) (fmul a1 b1)
  let c1 := fadd (fadd (fmul a0 b1) (fmul a1 b0)) (fmul a1 b1)
  .ok { eff with
    elems := b1 :: b0 :: c1 :: c0 :: eff.elems.drop 4 }

/-- First stack value not a canonical u32, if any. -/
def first_non_u32 (vs : List Nat) : Option Nat :=
  vs.find? (fun v => decide (W32 ≤ v))

/-- Modelled from the spec: `U32split` splits the top into `(hi, lo)` with
`x = hi * 2 ^ 32 + lo` (§8); the high limb is placed on top. -/
def op_u32split : OpHandler := fun eff =>
  let a := stack_get eff.elems 0 % P
  .ok { eff with elems := a / W32 :: a % W32 :: eff.elems.drop 1 }

/-- Modelled from the spec: `U32add` of the top two canonical u32 values,
leaving `(carry, sum)` with the carry on top. -/
def op_u32add : OpHandler := fun eff =>
  let b := stack_get eff.elems 0
  let a := stack_get eff.elems 1
  match first_non_u32 [b, a] with
  | some v => .error (.NotU32Value v)
  | none =>
    let s := a + b
    .ok { eff with elems := s / W32 :: s % W32 :: eff.elems.drop 2 }

/-- Modelled from the spec: `U32add3` sums the top three canonical u32
values, leaving `(hi, lo)`. -/
def op_u32add3 : OpHandler := fun eff =>
  let c := stack_get eff.elems 0
  let b := stack_get eff.elems 1
  let a := stack_get eff.elems 2
  match first_non_u32 [c, b, a] with
  | some v => .error (.NotU32Value v)
  | none =>
    let s := a + b + c
    .ok { eff with elems := pad16 (s / W32 :: s % W32 :: eff.elems.drop 3) }

/-- Modelled from the spec: `U32sub` of the top two canonical u32 values,
leaving `(borrow, diff)` with the borrow on top. -/
def op_u32sub : OpHandler := fun eff =>
  let b := stack_get eff.elems 0
  let a := stack_get eff.elems 1
  match first_non_u32 [b, a] with
  | some v => .error (.NotU32Value v)
  | none =>
    .ok { eff with
      elems := (if a < b then 1 else 0) :: (a + W32 - b) % W32
        :: eff.elems.drop 2 }

/-- Modelled from the spec: `U32mul` of the top two canonical u32 values,
leaving `(hi, lo)`. -/
def op_u32mul : OpHandler := fun eff =>
  let b := stack_get eff.elems 0
  let a := stack_get eff.elems 1
  match first_non_u32 [b, a] with
  | some v => .error (.NotU32Value v)
  | none =>
    let m := a * b
    .ok { eff with elems := m / W32 :: m % W32 :: eff.elems.drop 2 }

/-- Modelled from the spec: `U32madd` computes `a * b + c` over the top
three canonical u32 values, leaving `(hi, lo)`. -/
def op_u32madd : OpHandler := fun eff =>
  let b := stack_get eff.elems 0
  let a := stack_get eff.elems 1
  let c := stack_get eff.elems 2
  match first_non_u32 [b, a, c] with
  | some v => .error (.NotU32Value v)
  | none =>
    let r := a * b + c
    .ok { eff with elems := pad16 (r / W32 :: r % W32 :: eff.elems.drop 3) }

/-- Modelled from the spec: `U32div` fails on a zero divisor (§4.5),
otherwise leaves `(quotient, remainder)`. -/
def op_u32div : OpHandler := fun eff =>
  let b := stack_get eff.elems 0
  let a := stack_get eff.elems 1
  match first_non_u32 [b, a] with
  | some v => .error (.NotU32Value v)
  | none =>
    if b = 0 then .error .DivisionByZero
    else .ok { eff with elems := a / b :: a % b :: eff.elems.drop 2 }

/-- Bitwise AND of the top two canonical u32 values (§4.5). -/
def op_u32and : OpHandler := fun eff =>
  let b := stack_get eff.elems 0
  let a := stack_get eff.elems 1
  match first_non_u32 [b, a] with
  | some v => .error (.NotU32Value v)
  | none => .ok { eff with elems := pad16 (Nat.land a b :: eff.elems.drop 2) }

/-- Bitwise XOR of the top two canonical u32 values (§4.5). -/
def op_u32xor : OpHandler := fun eff =>
  let b := stack_get eff.elems 0
  let a := stack_get eff.elems 1
  match first_non_u32 [b, a] with
  | some v => .error (.NotU32Value v)
  | none => .ok { eff with elems := pad16 (Nat.xor a b :: eff.elems.drop 2) }

/-- Modelled from the spec: `U32assert2(code)` validates that the top two
values are canonical u32 values, leaving the stack unchanged. -/
def op_u32assert2 (_code : Nat) : OpHandler := fun eff =>
  match first_non_u32 [stack_get eff.elems 0, stack_get eff.elems 1] with
  | some v => .error (.NotU32Value v)
  | none => .ok { eff with elems := stack_copy_state eff.elems 0 }

/-- `Pad` pushes a zero (§4.5). -/
def op_pad : OpHandler := fun eff =>
  .ok { eff with elems := 0 :: eff.elems }

/-- `Drop` pops the top (§4.5). -/
def op_drop : OpHandler := fun eff =>
  .ok { eff with elems := pad16 (eff.elems.drop 1) }

/-- `Dup(i)` pushes a copy of the element at position `i` (§4.5). -/
def op_dup (i : Nat) : OpHandler := fun eff =>
  .ok { eff with elems := stack_get eff.elems i :: eff.elems }

/-- `Swap` exchanges the top two elements (§4.5). -/
def op_swap : OpHandler := fun eff =>
  .ok { eff with
    elems := stack_get eff.elems 1 :: stack_get eff.elems 0
      :: eff.elems.drop 2 }

/-- Swap the words (groups of 4) at the given word positions. -/
def swap_words (l : List Nat) (w1 w2 : Nat) : List Nat :=
  (List.range 16).map (fun i =>
    if w1 * 4 ≤ i ∧ i < w1 * 4 + 4 then stack_get l (i - w1 * 4 + w2 * 4)
    else if w2 * 4 ≤ i ∧ i < w2 * 4 + 4 then stack_get l (i - w2 * 4 + w1 * 4)
    else stack_get l i)
  ++ l.drop 16

/-- `SwapW`: word 0 with word 1 (§4.5). -/
def op_swapw : OpHandler := fun eff =>
  .ok { eff with elems := swap_words eff.elems 0 1 }

/-- `SwapW2`: word 0 with word 2 (§4.5). -/
def op_swapw2 : OpHandler := fun eff =>
  .ok { eff with elems := swap_words eff.elems 0 2 }

/-- `SwapW3`: word 0 with word 3 (§4.5). -/
def op_swapw3 : OpHandler := fun eff =>
  .ok { eff with elems := swap_words eff.elems 0 3 }

/-- `SwapDW`: double-word 0 with double-word 1 (§4.5). -/
def op_swapdw : OpHandler := fun eff =>
  .ok { eff with
    elems := (eff.elems.drop 8).take 8 ++ eff.elems.take 8
      ++ eff.elems.drop 16 }

/-- `MovUp(n)` moves the element at position `n` to the top (§4.5). -/
def op_movup (n : Nat) : OpHandler := fun eff =>
  .ok { eff with
    elems := stack_get eff.elems n
      :: (eff.elems.take n ++ eff.elems.drop (n + 1)) }

/-- `MovDn(n)` moves the top element to position `n` (§4.5). -/
def op_movdn (n : Nat) : OpHandler := fun eff =>
  .ok { eff with
    elems := (eff.elems.drop 1).take n ++ [stack_get eff.elems 0]
      ++ (eff.elems.drop 1).drop n }

/-- `CSwap` pops a binary condition and conditionally swaps the (new) top
two elements (§4.5). -/
def op_cswap : OpHandler := fun eff =>
  let c := stack_get eff.elems 0
  if 1 < c then .error (.NotBinaryValue c)
  else
    let t := eff.elems.drop 1
    let a := stack_get t 0
    let b := stack_get t 1
    .ok { eff with
      elems := pad16 ((if c = 1 then b :: a :: t.drop 2
        else a :: b :: t.drop 2)) }

/-- `CSwapW` pops a binary condition and conditionally swaps the (new) top
two words (§4.5). -/
def op_cswapw : OpHandler := fun eff =>
  let c := stack_get eff.elems 0
  if 1 < c then .error (.NotBinaryValue c)
  else
    let t := eff.elems.drop 1
    .ok { eff with
      elems := pad16 (if c = 1 then swap_words t 0 1 else t) }

/-- `Push(value)` pushes an immediate field element (§4.5). -/
def op_push (value : Nat) : OpHandler := fun eff =>
  .ok { eff with elems := value % P :: eff.elems }

/-- `AdvPop` pulls one element from the host advice stack; fails with
`AdviceStackEmpty` if none is available (§4.5). -/
def op_advpop : OpHandler := fun eff =>
  match eff.advice_stack with
  | [] => .error .AdviceStackEmpty
  | v :: rest =>
    .ok { eff with elems := v % P :: eff.elems, advice_stack := rest }

/-- `AdvPopW` pulls four elements from the host advice stack, overwriting
the top word; fails with `AdviceStackEmpty` if fewer are available (§4.5). -/
def op_advpopw : OpHandler := fun eff =>
  if eff.advice_stack.length < 4 then .error .AdviceStackEmpty
  else
    .ok { eff with
      elems := (eff.advice_stack.take 4).map (· % P) ++ eff.elems.drop 4,
      advice_stack := eff.advice_stack.drop 4 }

/-- Modelled from the spec: memory addresses must be in range (§7 lists
`MemoryAddressOutOfRange`); canonical u32 addressing. -/
def check_addr (addr : Nat) : Except ExecutionError Nat :=
  if addr < W32 then .ok addr else .error .MemoryAddressOutOfRange

/-- `MLoadW` pops an address and overwrites the top word with the word
read from memory (§4.5). -/
def op_mloadw : OpHandler := fun eff => do
  let addr ← check_addr (stack_get eff.elems 0)
  let t := eff.elems.drop 1
  .ok { eff with
    elems := pad16 ((List.range 4).map (fun k => mem_read eff.memory (addr + k))
      ++ t.drop 4) }

/-- `MStoreW` pops an address and stores the (new) top word to memory,
leaving it on the stack (§4.5). -/
def op_mstorew : OpHandler := fun eff => do
  let addr ← check_addr (stack_get eff.elems 0)
  let t := eff.elems.drop 1
  let mem :=
    (List.range 4).foldl
      (fun mem k => mem_write mem (addr + k) (stack_get t k)) eff.memory
  .ok { eff with elems := pad16 t, memory := mem }

/-- `MLoad` pops an address and pushes the element read from memory
(§4.5). -/
def op_mload : OpHandler := fun eff => do
  let addr ← check_addr (stack_get eff.elems 0)
  .ok { eff with
    elems := mem_read eff.memory addr :: eff.elems.drop 1 }

/-- `MStore` pops an address and stores the (new) top element to memory,
leaving it on the stack (§4.5). -/
def op_mstore : OpHandler := fun eff => do
  let addr ← check_addr (stack_get eff.elems 0)
  let t := eff.elems.drop 1
  .ok { eff with elems := pad16 t,
                 memory := mem_write eff.memory addr (stack_get t 0) }

/-- Modelled from the spec: `MStream` bulk-loads two words from memory at
the address held at position 12, overwriting the top eight elements and
advancing the address by 8 (§4.5 "bulk memory-to-stack"). -/
def op_mstream : OpHandler := fun eff => do
  let addr ← check_addr (stack_get eff.elems 12)
  let loaded := (List.range 8).map (fun k => mem_read eff.memory (addr + k))
  let base := loaded ++ eff.elems.drop 8
  .ok { eff with elems := base.set 12 (addr + 8) }

/-- Modelled from the spec: `Pipe` moves eight elements from the advice
stack to memory at the address held at position 12 and onto the top of the
stack, advancing the address by 8 (§4.5 "advice-to-stack-and-memory"). -/
def op_pipe : OpHandler := fun eff => do
  let addr ← check_addr (stack_get eff.elems 12)
  if eff.advice_stack.length < 8 then .error .AdviceStackEmpty
  else
    let ws := (eff.advice_stack.take 8).map (· % P)
    let mem :=
      (List.range 8).foldl
        (fun mem k => mem_write mem (addr + k) (stack_get ws k)) eff.memory
    let base := ws ++ eff.elems.drop 8
    .ok { eff with elems := base.set 12 (addr + 8), memory := mem,
                   advice_stack := eff.advice_stack.drop 8 }

/-- Modelled from the spec: `HPerm` applies the hash permutation to the
top 12 elements; the concrete permutation is not specified upstream and is
modelled as a fixed bijection (rotation) of the 12-element state. -/
def op_hperm : OpHandler := fun eff =>
  let st := (eff.elems.take 12) ++ List.replicate (12 - eff.elems.length) 0
  .ok { eff with elems := st.drop 1 ++ st.take 1 ++ eff.elems.drop 12 }

/-- Modelled from the spec: `MpVerify(code)` checks the claimed
`[root, depth, index, node]` (stack positions 3, 1, 2, 0) against the
host's Merkle store, failing with `MerklePathVerificationFailed(code)`
(§4.5, §4.6). -/
def op_mpverify (code : Nat) : OpHandler := fun eff =>
  let node := stack_get eff.elems 0
  let depth := stack_get eff.elems 1
  let index := stack_get eff.elems 2
  let root := stack_get eff.elems 3
  if eff.merkle_store.contains [root, depth, index, node] then
    .ok { eff with elems := stack_copy_state eff.elems 0 }
  else
    .error (.MerklePathVerificationFailed code)

/-- Modelled from the spec: `MrUpdate` replaces a leaf along an
authenticated path; the old `[root, depth, index, node]` must be in the
host's Merkle store and the new root is the root the store associates with
the new node at the same position. -/
def op_mrupdate : OpHandler := fun eff =>
  let new_node := stack_get eff.elems 0
  let node := stack_get eff.elems 1
  let depth := stack_get eff.elems 2
  let index := stack_get eff.elems 3
  let root := stack_get eff.elems 4
  if eff.merkle_store.contains [root, depth, index, node] then
    match eff.merkle_store.find? (fun entry =>
        decide (entry.drop 1 = [depth, index, new_node])) with
    | some entry =>
      .ok { eff with
        elems := pad16 (stack_get entry 0 :: eff.elems.drop 5) }
    | none => .error (.MerklePathVerificationFailed 0)
  else
    .error (.MerklePathVerificationFailed 0)

/-- Modelled from the spec: `FriE2F4` performs one FRI folding step,
modelled as combining the top eight elements into two folded values. -/
def op_fri_ext2fold4 : OpHandler := fun eff =>
  let f1 := ((eff.elems.take 4).foldl fadd 0)
  let f2 := (((eff.elems.drop 4).take 4).foldl fadd 0)
  .ok { eff with elems := pad16 (f1 :: f2 :: eff.elems.drop 8) }

/-- Modelled from the spec: `HornerBase` absorbs the top eight coefficients
into the accumulator at position 13 by iterated multiply-and-add with the
evaluation point at position 12 (§4.5 "Horner evaluation stages"). -/
def op_horner_eval_base : OpHandler := fun eff =>
  let alpha := stack_get eff.elems 12
  let acc :=
    (eff.elems.take 8).foldl (fun acc c => fadd (fmul acc alpha) c)
      (stack_get eff.elems 13)
  .ok { eff with elems := eff.elems.set 13 acc }

/-- Quadratic-extension multiplication (over `x ^ 2 - x - 1`) on
component pairs, shared by the extension-field Horner step. -/
def ext2_mul_pair (a b : Nat × Nat) : Nat × Nat :=
  (fadd (fmul a.1 b.1) (fmul a.2 b.2),
   fadd (fadd (fmul a.1 b.2) (fmul a.2 b.1)) (fmul a.2 b.2))

/-- Modelled from the spec: `HornerExt` absorbs the top four extension
coefficients into the accumulator pair at positions 14-15 by iterated
multiply-and-add with the evaluation point pair at positions 12-13. -/
def op_horner_eval_ext : OpHandler := fun eff =>
  let alpha := (stack_get eff.elems 12, stack_get eff.elems 13)
  let coeffs :=
    [(stack_get eff.elems 0, stack_get eff.elems 1),
     (stack_get eff.elems 2, stack_get eff.elems 3),
     (stack_get eff.elems 4, stack_get eff.elems 5),
     (stack_get eff.elems 6, stack_get eff.elems 7)]
  let acc :=
    coeffs.foldl
      (fun acc c =>
        let m := ext2_mul_pair acc alpha
        (fadd m.1 c.1, fadd m.2 c.2))
      (stack_get eff.elems 14, stack_get eff.elems 15)
  .ok { eff with elems := (eff.elems.set 14 acc.1).set 15 acc.2 }

-- ==========================================================================
-- Processor: dispatcher
-- ==========================================================================

/-- Run one handler against the process and host: build the handler's view
of the mutable state, apply it, and write the result back.  The clock, the
trace rows, the decoder and the cycle bound are not part of the writable
view — handlers are pure state transitions on stack, memory, fmp and host
data (§4.5), and `advance_clock` is the sole clock source (§5).  The ghost
journal records that the transition for `op` happened here. -/
def Process.lift_op (p : Process) (host : Host) (op : Operation)
    (f : OpHandler) : StepResult :=
  match f { elems := p.stack.elems, memory := p.memory, fmp := p.system.fmp,
            caller := p.system.caller, clk := p.system.clk,
            advice_stack := host.advice_stack, events := host.events,
            merkle_store := host.merkle_store } with
  | .error e => .error e
  | .ok eff =>
    .ok
      { p with stack := { p.stack with elems := eff.elems },
               memory := eff.memory,
               system := { p.system with fmp := eff.fmp },
               log := p.log ++ [.opTransition op] }
      { advice_stack := eff.advice_stack, events := eff.events,
        merkle_store := eff.merkle_store }

/-- The `match op` of `execute_op`: every non-control-flow operation is
dispatched to its handler; control-flow operations are `unreachable!`. -/
def Process.op_dispatch (p : Process) (op : Operation) (host : Host) :
    StepResult :=
  match op with
  -- ----- system operations --------------------------------------------
  | .Noop => p.lift_op host .Noop op_noop
  | .Assert err_code => p.lift_op host (.Assert err_code) (op_assert err_code)
  | .FmpAdd => p.lift_op host .FmpAdd op_fmpadd
  | .FmpUpdate => p.lift_op host .FmpUpdate op_fmpupdate
  | .SDepth => p.lift_op host .SDepth op_sdepth
  | .Caller => p.lift_op host .Caller op_caller
  | .Clk => p.lift_op host .Clk op_clk
  | .Emit event_id => p.lift_op host (.Emit event_id) (op_emit event_id)
  -- ----- flow control operations --------------------------------------
  -- control flow operations are never executed directly
  | .Join => .panic "control flow operation"
  | .Split => .panic "control flow operation"
  | .Loop => .panic "control flow operation"
  | .Call => .panic "control flow operation"
  | .SysCall => .panic "control flow operation"
  | .Dyn => .panic "control flow operation"
  | .Dyncall => .panic "control flow operation"
  | .Span => .panic "control flow operation"
  | .Repeat => .panic "control flow operation"
  | .Respan => .panic "control flow operation"
  | .End => .panic "control flow operation"
  | .Halt => .panic "control flow operation"
  -- ----- field operations ---------------------------------------------
  | .Add => p.lift_op host .Add op_add
  | .Neg => p.lift_op host .Neg op_neg
  | .Mul => p.lift_op host .Mul op_mul
  | .Inv => p.lift_op host .Inv op_inv
  | .Incr => p.lift_op host .Incr op_incr
  | .And => p.lift_op host .And op_and
  | .Or => p.lift_op host .Or op_or
  | .Not => p.lift_op host .Not op_not
  | .Eq => p.lift_op host .Eq op_eq
  | .Eqz => p.lift_op host .Eqz op_eqz
  | .Expacc => p.lift_op host .Expacc op_expacc
  -- ----- ext2 operations ----------------------------------------------
  | .Ext2Mul => p.lift_op host .Ext2Mul op_ext2mul
  -- ----- u32 operations -----------------------------------------------
  | .U32split => p.lift_op host .U32split op_u32split
  | .U32add => p.lift_op host .U32add op_u32add
  | .U32add3 => p.lift_op host .U32add3 op_u32add3
  | .U32sub => p.lift_op host .U32sub op_u32sub
  | .U32mul => p.lift_op host .U32mul op_u32mul
  | .U32madd => p.lift_op host .U32madd op_u32madd
  | .U32div => p.lift_op host .U32div op_u32div
  | .U32and => p.lift_op host .U32and op_u32and
  | .U32xor => p.lift_op host .U32xor op_u32xor
  | .U32assert2 err_code =>
    p.lift_op host (.U32assert2 err_code) (op_u32assert2 err_code)
  -- ----- stack manipulation -------------------------------------------
  | .Pad => p.lift_op host .Pad op_pad
  | .Drop => p.lift_op host .Drop op_drop
  | .Dup0 => p.lift_op host .Dup0 (op_dup 0)
  | .Dup1 => p.lift_op host .Dup1 (op_dup 1)
  | .Dup2 => p.lift_op host .Dup2 (op_dup 2)
  | .Dup3 => p.lift_op host .Dup3 (op_dup 3)
  | .Dup4 => p.lift_op host .Dup4 (op_dup 4)
  | .Dup5 => p.lift_op host .Dup5 (op_dup 5)
  | .Dup6 => p.lift_op host .Dup6 (op_dup 6)
  | .Dup7 => p.lift_op host .Dup7 (op_dup 7)
  | .Dup9 => p.lift_op host .Dup9 (op_dup 9)
  | .Dup11 => p.lift_op host .Dup11 (op_dup 11)
  | .Dup13 => p.lift_op host .Dup13 (op_dup 13)
  | .Dup15 => p.lift_op host .Dup15 (op_dup 15)
  | .Swap => p.lift_op host .Swap op_swap
  | .SwapW => p.lift_op host .SwapW op_swapw
  | .SwapW2 => p.lift_op host .SwapW2 op_swapw2
  | .SwapW3 => p.lift_op host .SwapW3 op_swapw3
  | .SwapDW => p.lift_op host .SwapDW op_swapdw
  | .MovUp2 => p.lift_op host .MovUp2 (op_movup 2)
  | .MovUp3 => p.lift_op host .MovUp3 (op_movup 3)
  | .MovUp4 => p.lift_op host .MovUp4 (op_movup 4)
  | .MovUp5 => p.lift_op host .MovUp5 (op_movup 5)
  | .MovUp6 => p.lift_op host .MovUp6 (op_movup 6)
  | .MovUp7 => p.lift_op host .MovUp7 (op_movup 7)
  | .MovUp8 => p.lift_op host .MovUp8 (op_movup 8)
  | .MovDn2 => p.lift_op host .MovDn2 (op_movdn 2)
  | .MovDn3 => p.lift_op host .MovDn3 (op_movdn 3)
  | .MovDn4 => p.lift_op host .MovDn4 (op_movdn 4)
  | .MovDn5 => p.lift_op host .MovDn5 (op_movdn 5)
  | .MovDn6 => p.lift_op host .MovDn6 (op_movdn 6)
  | .MovDn7 => p.lift_op host .MovDn7 (op_movdn 7)
  | .MovDn8 => p.lift_op host .MovDn8 (op_movdn 8)
  | .CSwap => p.lift_op host .CSwap op_cswap
  | .CSwapW => p.lift_op host .CSwapW op_cswapw
  -- ----- input / output -----------------------------------------------
  | .Push value => p.lift_op host (.Push value) (op_push value)
  | .AdvPop => p.lift_op host .AdvPop op_advpop
  | .AdvPopW => p.lift_op host .AdvPopW op_advpopw
  | .MLoadW => p.lift_op host .MLoadW op_mloadw
  | .MStoreW => p.lift_op host .MStoreW op_mstorew
  | .MLoad => p.lift_op host .MLoad op_mload
  | .MStore => p.lift_op host .MStore op_mstore
  | .MStream => p.lift_op host .MStream op_mstream
  | .Pipe => p.lift_op host .Pipe op_pipe
  -- ----- cryptographic operations -------------------------------------
  | .HPerm => p.lift_op host .HPerm op_hperm
  | .MpVerify err_code =>
    p.lift_op host (.MpVerify err_code) (op_mpverify err_code)
  | .MrUpdate => p.lift_op host .MrUpdate op_mrupdate
  | .FriE2F4 => p.lift_op host .FriE2F4 op_fri_ext2fold4
  | .HornerBase => p.lift_op host .HornerBase op_horner_eval_base
  | .HornerExt => p.lift_op host .HornerExt op_horner_eval_ext

/-- `ensure_trace_capacity`: makes sure there is enough memory allocated
for the trace to accommodate a new clock cycle — on the system and stack
components, in that order. -/
def Process.ensure_trace_capacity (p : Process) : Process :=
  { p with system := p.system.ensure_trace_capacity,
           stack := p.stack.ensure_trace_capacity,
           log := p.log ++ [.ensureCapSystem, .ensureCapStack] }

/-- `advance_clock`: increments the clock cycle for all components of the
process — the system (checked against `max_cycles`), then the stack. -/
def Process.advance_clock (p : Process) : Except ExecutionError Process :=
  match p.system.advance_clock p.max_cycles with
  | .error e => .error e
  | .ok sys =>
    .ok { p with system := sys, stack := p.stack.advance_clock,
                 log := p.log ++ [.advClockSystem, .advClockStack] }

/-- `execute_op(op, host)`: ensure trace capacity, execute the operation,
then advance the clock. -/
def Process.execute_op (p : Process) (op : Operation) (host : Host) :
    StepResult :=
  -- make sure there is enough memory allocated to hold the execution
  -- trace, then execute the operation
  match (p.ensure_trace_capacity).op_dispatch op host with
  | .panic msg => .panic msg
  | .error e => .error e
  | .ok p2 h2 =>
    match p2.advance_clock with
    | .error e => .error e
    | .ok p3 => .ok p3 h2

-- ==========================================================================
-- Derived notions and concrete example values used by the theorems
-- ==========================================================================

/-- The visibility an export carries after the kernel rewrite: `Public`
becomes `Syscall`, everything else is unchanged (aliases carry none). -/
def vis_after (e : Export) : Option Visibility :=
  e.procedure_visibility.map (fun v => if v = Visibility.Public then .Syscall else v)

/-- Number of system-clock advances recorded in a ghost journal. -/
def count_adv_clock : List TraceEvent → Nat
  | [] => 0
  | .advClockSystem :: rest => count_adv_clock rest + 1
  | _ :: rest => count_adv_clock rest

/-- A fresh one-byte span. -/
def spn (n : Nat) : Span := ⟨n, n + 1⟩

/-- A blank process: zeroed registers, empty trace buffers, empty memory,
a fresh decoder, and a cycle budget of 10. -/
def exP : Process :=
  { system := { clk := 0, fmp := 0, caller := 0, trace_capacity := 0 },
    stack := { elems := List.replicate 16 0, trace := [], trace_capacity := 0 },
    memory := [],
    decoder := { trace_rows := 0, trace_capacity := 0 },
    max_cycles := 10,
    log := [] }

/-- A host with no advice, no events and no Merkle facts. -/
def exH : Host := { advice_stack := [], events := [], merkle_store := [] }

/-- The process after one `Noop` on the blank process. -/
def exP1 : Process := (exP.execute_op .Noop exH).the_process exP

/-- The host after one `Noop` on the blank process. -/
def exH1 : Host := (exP.execute_op .Noop exH).the_host exH

-- Example values for the duplicate-import scenario (claim C1).

def c1_path : LibraryPath := ⟨["test"]⟩

def c1_i1 : Import :=
  { span := spn 1, local_name := "u64",
    path := ⟨["std", "math", "u64"]⟩, uses := 0 }

def c1_i2 : Import :=
  { span := spn 2, local_name := "u64",
    path := ⟨["std", "sys", "u64"]⟩, uses := 0 }

/-- A procedure whose body calls through a module prefix that matches no
import, so the invoke-target pass would report `MissingImport` at span
`spn 4` if it ran. -/
def c1_proc : Procedure :=
  { span := spn 3, visibility := .Private, name := "foo", num_locals := 0,
    body := [.exec (.ProcedurePath
      { span := spn 4, module := ⟨["sys"]⟩, name := "bar" })],
    docs := none }

/-- The module state right after the conflicting imports were processed:
the first import survived, the procedure was defined. -/
def c1_module_after_forms : Module :=
  { kind := .Library, path := c1_path, docs := none, imports := [c1_i1],
    procedures := [.Procedure c1_proc] }

-- Example values for the repeated-module-doc scenario (claim C6).

def c6_path : LibraryPath := ⟨["docmod"]⟩

def c6_d1 : DocString := { span := spn 1, text := "first module doc" }

def c6_d2 : DocString := { span := spn 2, text := "second module doc" }

-- Example values for the alias-resolution scenario (claim C7).

def c7_t : ProcedurePathTarget :=
  { span := spn 11, module := ⟨["u64"]⟩, name := "wrapping_add" }

def c7_alias : ProcAlias :=
  { span := spn 10, name := "mod64", target := .ProcedurePath c7_t,
    absolute := false, docs := none }

def c7_imp : Import :=
  { span := spn 9, local_name := "u64",
    path := ⟨["std", "math", "u64"]⟩, uses := 0 }

/-- A sibling procedure preceding the alias, so the alias is not the
module's only export. -/
def c7_other : Procedure :=
  { span := spn 12, visibility := .Private, name := "helper",
    num_locals := 0, body := [.nop], docs := none }

def c7_m2 : Module :=
  { kind := .Library, path := ⟨["mylib"]⟩, docs := none,
    imports := [c7_imp],
    procedures := [.Procedure c7_other, .Alias c7_alias] }

def c7_ctx : AnalysisContext := AnalysisContext.new false

-- Example values for the trailing-docstring scenario (claim C9).

def c9_path : LibraryPath := ⟨["docs"]⟩

def c9_doc : DocString := { span := spn 40, text := "dangling" }

-- Example values for the kernel-visibility scenario (claim C2).

def c2_pub : Procedure :=
  { span := spn 20, visibility := .Public, name := "foo", num_locals := 0,
    body := [.nop], docs := none }

def c2_priv : Procedure :=
  { span := spn 21, visibility := .Private, name := "bar", num_locals := 0,
    body := [.nop], docs := none }

def c2_m : Module :=
  { kind := .Kernel, path := ⟨["kernel"]⟩, docs := none, imports := [],
    procedures := [.Procedure c2_pub, .Procedure c2_priv] }

def c2_ctx : AnalysisContext := AnalysisContext.new false

-- Example values for the duplicate-procedure scenario (claim C10).

def c10_first : Procedure :=
  { span := spn 30, visibility := .Private, name := "foo", num_locals := 0,
    body := [.nop], docs := none }

def c10_m : Module :=
  { kind := .Library, path := ⟨["dup"]⟩, docs := none, imports := [],
    procedures := [.Procedure c10_first] }

/-- A second procedure with the same name, defined later. -/
def c10_e : Export :=
  .Procedure { c10_first with span := spn 31 }

def c10_ctx : AnalysisContext := AnalysisContext.new false

/-- The context produced by defining `c10_e` over `c10_m`: the conflict is
recorded and the name is registered anyway. -/
def c10_ctx_after : AnalysisContext :=
  (c10_ctx.error (.SymbolConflict (spn 31))).register_procedure_name "foo"

-- ==========================================================================
-- Helper lemmas: processor
-- ==========================================================================

theorem sys_ensure_clk (s : SystemState) :
    s.ensure_trace_capacity.clk = s.clk := by
  unfold SystemState.ensure_trace_capacity
  split <;> rfl

theorem stk_ensure_elems (s : StackState) :
    s.ensure_trace_capacity.elems = s.elems := by
  unfold StackState.ensure_trace_capacity
  split <;> rfl

theorem stk_ensure_trace (s : StackState) :
    s.ensure_trace_capacity.trace = s.trace := by
  unfold StackState.ensure_trace_capacity
  split <;> rfl

theorem ensure_clk (p : Process) :
    p.ensure_trace_capacity.system.clk = p.system.clk :=
  sys_ensure_clk p.system

theorem ensure_elems (p : Process) :
    p.ensure_trace_capacity.stack.elems = p.stack.elems :=
  stk_ensure_elems p.stack

theorem ensure_trace (p : Process) :
    p.ensure_trace_capacity.stack.trace = p.stack.trace :=
  stk_ensure_trace p.stack

theorem ensure_log (p : Process) :
    p.ensure_trace_capacity.log
      = p.log ++ [.ensureCapSystem, .ensureCapStack] := rfl

/-- Every dispatched handler writes back only stack elements, memory, the
fmp and host data: the clock, the trace rows, the decoder, the cycle bound
are untouched, and exactly one transition event is journaled. -/
theorem lift_op_inv {p : Process} {host : Host} {op : Operation}
    {f : OpHandler} {p' : Process} {h' : Host}
    (h : p.lift_op host op f = .ok p' h') :
    p'.system.clk = p.system.clk ∧ p'.stack.trace = p.stack.trace ∧
    p'.decoder = p.decoder ∧ p'.max_cycles = p.max_cycles ∧
    p'.log = p.log ++ [.opTransition op] := by
  unfold Process.lift_op at h
  split at h
  · exact StepResult.noConfusion h
  · injection h with h1 h2
    subst h1
    exact ⟨rfl, rfl, rfl, rfl, rfl⟩

/-- Case analysis of the dispatcher: on success, the invariants of
`lift_op_inv` hold for every operation. -/
theorem dispatch_inv {p : Process} {op : Operation} {host : Host}
    {p' : Process} {h' : Host}
    (h : p.op_dispatch op host = .ok p' h') :
    p'.system.clk = p.system.clk ∧ p'.stack.trace = p.stack.trace ∧
    p'.decoder = p.decoder ∧ p'.max_cycles = p.max_cycles ∧
    p'.log = p.log ++ [.opTransition op] := by
  cases op <;> simp only [Process.op_dispatch] at h <;>
    first
      | exact StepResult.noConfusion h
      | exact lift_op_inv h

theorem advance_clock_ok {p p' : Process} (h : p.advance_clock = .ok p') :
    p'.system.clk = p.system.clk + 1 ∧ p'.stack.elems = p.stack.elems ∧
    p'.stack.trace = p.stack.trace ++ [p.stack.elems] ∧
    p'.decoder = p.decoder ∧
    p'.log = p.log ++ [.advClockSystem, .advClockStack] := by
  unfold Process.advance_clock at h
  split at h
  · exact Except.noConfusion h
  · next sys heq =>
      injection h with h1
      subst h1
      unfold SystemState.advance_clock at heq
      split at heq
      · exact Except.noConfusion heq
      · injection heq with h2
        subst h2
        exact ⟨rfl, rfl, rfl, rfl, rfl⟩

/-- On success, `execute_op` journals exactly: capacity growth on system
and stack, the transition for `op`, then the clock advance on system and
stack — in that order. -/
theorem execute_op_log_helper {op : Operation} {p : Process} {host : Host}
    {p' : Process} {h' : Host} (h : p.execute_op op host = .ok p' h') :
    p'.log = p.log ++ [.ensureCapSystem, .ensureCapStack, .opTransition op,
      .advClockSystem, .advClockStack] := by
  unfold Process.execute_op at h
  split at h
  · exact StepResult.noConfusion h
  · exact StepResult.noConfusion h
  · next p2 h2 heq =>
      split at h
      · exact StepResult.noConfusion h
      · next p3 hadv =>
          injection h with h1 h2x
          subst h1
          have hd := dispatch_inv heq
          have ha := advance_clock_ok hadv
          rw [ha.2.2.2.2, hd.2.2.2.2, ensure_log]
          simp

/-- On success, the clock advances by exactly one and exactly one stack
trace row is produced, with exactly one system clock advance journaled. -/
theorem execute_op_clock_helper {op : Operation} {p : Process} {host : Host}
    {p' : Process} {h' : Host} (h : p.execute_op op host = .ok p' h') :
    p'.system.clk = p.system.clk + 1 ∧
    p'.stack.trace.length = p.stack.trace.length + 1 := by
  unfold Process.execute_op at h
  split at h
  · exact StepResult.noConfusion h
  · exact StepResult.noConfusion h
  · next p2 h2 heq =>
      split at h
      · exact StepResult.noConfusion h
      · next p3 hadv =>
          injection h with h1 h2x
          subst h1
          have hd := dispatch_inv heq
          have ha := advance_clock_ok hadv
          constructor
          · rw [ha.1, hd.1, ensure_clk]
          · rw [ha.2.2.1, hd.2.1, ensure_trace]
            simp

theorem count_adv_append (l : List TraceEvent) (op : Operation) :
    count_adv_clock (l ++ [.ensureCapSystem, .ensureCapStack,
      .opTransition op, .advClockSystem, .advClockStack])
      = count_adv_clock l + 1 := by
  induction l with
  | nil => rfl
  | cons e rest ih => cases e <;> simp [count_adv_clock, ih]

/-- The dispatcher sends `Noop` to the stack copy-state handler, which
succeeds and leaves everything but the journal unchanged. -/
theorem dispatch_noop (q : Process) (host : Host) :
    q.op_dispatch .Noop host
      = .ok { q with log := q.log ++ [.opTransition .Noop] } host := rfl

theorem advance_ok_of_le (q : Process)
    (hle : q.system.clk + 1 ≤ q.max_cycles) :
    q.advance_clock = .ok
      { q with system := { q.system with clk := q.system.clk + 1 },
               stack := q.stack.advance_clock,
               log := q.log ++ [.advClockSystem, .advClockStack] } := by
  unfold Process.advance_clock SystemState.advance_clock
  rw [if_neg (by omega)]

theorem execute_op_eq_ok {p p2 p3 : Process} {op : Operation}
    {host h2 : Host}
    (hd : (p.ensure_trace_capacity).op_dispatch op host = .ok p2 h2)
    (ha : p2.advance_clock = .ok p3) :
    p.execute_op op host = .ok p3 h2 := by
  unfold Process.execute_op
  simp only [hd, ha]

-- ==========================================================================
-- Claim theorems: processor
-- ==========================================================================

/-- C4: every control-flow operation (Join, Split, Loop, Call, SysCall,
Dyn, Dyncall, Span, Repeat, Respan, End, Halt) is never dispatched to a
state transition and never returns normally from `execute_op`: reaching it
is a programmer error (`unreachable!`), modelled as a panic. -/
theorem execute_op_control_flow_unreachable (op : Operation) (p : Process)
    (host : Host) (h : op.is_control_flow = true) :
    p.execute_op op host = .panic "control flow operation" := by
  cases op <;>
    first
      | rfl
      | simp [Operation.is_control_flow] at h

/-- Witness for C4 at the `Join` operation on the blank process. -/
theorem execute_op_control_flow_unreachable_witness :
    Operation.Join.is_control_flow = true ∧
    exP.execute_op .Join exH = .panic "control flow operation" :=
  ⟨rfl, execute_op_control_flow_unreachable .Join exP exH rfl⟩

/-- C3 (amended): a successful `execute_op(op, host)` performs, in order,
(i) `ensure_trace_capacity` on the system and stack components, (ii) the
state transition corresponding to `op`, (iii) `advance_clock`; nothing
else is journaled. -/
theorem execute_op_event_order (op : Operation) (p : Process) (host : Host)
    (p' : Process) (h' : Host) (h : p.execute_op op host = .ok p' h') :
    p'.log = p.log ++ [.ensureCapSystem, .ensureCapStack, .opTransition op,
      .advClockSystem, .advClockStack] :=
  execute_op_log_helper h

/-- Witness for C3 (amended): one `Noop` on the blank process journals
exactly the five events in order. -/
theorem execute_op_event_order_witness :
    exP.execute_op .Noop exH = .ok exP1 exH1 ∧
    exP1.log = exP.log ++ [.ensureCapSystem, .ensureCapStack,
      .opTransition .Noop, .advClockSystem, .advClockStack] :=
  ⟨by decide, execute_op_event_order .Noop exP exH exP1 exH1 (by decide)⟩

/-- C3 counterexample: a successful `execute_op` leaves the decoder
component untouched, although ensuring its trace capacity would have
changed it — `ensure_trace_capacity` is not performed on all state
components of the process. -/
theorem execute_op_not_all_components_ensured :
    (exP.execute_op .Noop exH).is_ok = true ∧
    ((exP.execute_op .Noop exH).the_process exP).decoder = exP.decoder ∧
    exP.decoder.ensure_trace_capacity ≠ exP.decoder := by
  decide

/-- C5: every successful `execute_op` advances the clock by exactly 1,
produces exactly one stack trace row, and journals exactly one system
clock advance (`advance_clock` is the sole clock source). -/
theorem execute_op_one_cycle_one_row (op : Operation) (p : Process)
    (host : Host) (p' : Process) (h' : Host)
    (h : p.execute_op op host = .ok p' h') :
    p'.system.clk = p.system.clk + 1 ∧
    p'.stack.trace.length = p.stack.trace.length + 1 ∧
    count_adv_clock p'.log = count_adv_clock p.log + 1 := by
  have hc := execute_op_clock_helper h
  refine ⟨hc.1, hc.2, ?_⟩
  rw [execute_op_log_helper h, count_adv_append]

/-- Witness for C5: one `Noop` on the blank process. -/
theorem execute_op_one_cycle_one_row_witness :
    exP.execute_op .Noop exH = .ok exP1 exH1 ∧
    (exP1.system.clk = exP.system.clk + 1 ∧
      exP1.stack.trace.length = exP.stack.trace.length + 1 ∧
      count_adv_clock exP1.log = count_adv_clock exP.log + 1) :=
  ⟨by decide, execute_op_one_cycle_one_row .Noop exP exH exP1 exH1 (by decide)⟩

/-- C8: from any process state within the cycle limit, `execute_op(Noop)`
succeeds, leaves the operand stack unchanged (copy-state with shift 0),
advances the clock by exactly 1, and leaves the host untouched. -/
theorem execute_op_noop_ok (p : Process) (host : Host)
    (h : p.system.clk + 1 ≤ p.max_cycles) :
    (p.execute_op .Noop host).is_ok = true ∧
    ((p.execute_op .Noop host).the_process p).stack.elems = p.stack.elems ∧
    ((p.execute_op .Noop host).the_process p).system.clk
      = p.system.clk + 1 ∧
    (p.execute_op .Noop host).the_host host = host := by
  have hle : ({ p.ensure_trace_capacity with
      log := p.ensure_trace_capacity.log ++ [TraceEvent.opTransition .Noop] }
        : Process).system.clk + 1
      ≤ ({ p.ensure_trace_capacity with
        log := p.ensure_trace_capacity.log ++ [TraceEvent.opTransition .Noop] }
        : Process).max_cycles := by
    rw [show ({ p.ensure_trace_capacity with
        log := p.ensure_trace_capacity.log
          ++ [TraceEvent.opTransition .Noop] } : Process).system.clk
        = p.system.clk from ensure_clk p]
    exact h
  have hrun := execute_op_eq_ok (dispatch_noop p.ensure_trace_capacity host)
    (advance_ok_of_le _ hle)
  rw [hrun]
  refine ⟨rfl, ?_, ?_, rfl⟩
  · exact ensure_elems p
  · exact congrArg (· + 1) (ensure_clk p)

-- ==========================================================================
-- Helper lemmas: semantic analysis
-- ==========================================================================

theorem const_eval_vis (ctx : AnalysisContext) (p : Procedure) :
    (const_eval_procedure ctx p).2.visibility = p.visibility := rfl

theorem verify_vis (k : Bool) (ctx : AnalysisContext) (m : Module)
    (locals : List Ident) (p : Procedure) :
    (verify_invoke_procedure k ctx m locals p).2.2.visibility
      = p.visibility := rfl

theorem resolve_target_procs (ctx : AnalysisContext) (m : Module)
    (locals : List Ident) (t : InvocationTarget) :
    (resolve_invoke_target ctx m locals t).2.1.procedures = m.procedures := by
  cases t <;> simp only [resolve_invoke_target] <;> split <;> rfl

theorem verify_inst_procs (k : Bool) (ctx : AnalysisContext) (m : Module)
    (locals : List Ident) (inst : Instruction) :
    (verify_invoke_inst k ctx m locals inst).2.1.procedures
      = m.procedures := by
  cases inst with
  | push imm => rfl
  | nop => rfl
  | exec t => exact resolve_target_procs ctx m locals t
  | call t =>
    simp only [verify_invoke_inst]
    split
    · rfl
    · exact resolve_target_procs ctx m locals t
  | syscall t =>
    simp only [verify_invoke_inst]
    split
    · rfl
    · exact resolve_target_procs ctx m locals t

theorem verify_body_procs (k : Bool) (locals : List Ident) :
    ∀ (body : List Instruction) (ctx : AnalysisContext) (m : Module),
    (verify_invoke_body k ctx m locals body).2.1.procedures
      = m.procedures := by
  intro body
  induction body with
  | nil => intro ctx m; rfl
  | cons i rest ih =>
    intro ctx m
    exact (ih _ _).trans (verify_inst_procs k ctx m locals i)

theorem verify_procs (k : Bool) (ctx : AnalysisContext) (m : Module)
    (locals : List Ident) (p : Procedure) :
    (verify_invoke_procedure k ctx m locals p).2.1.procedures
      = m.procedures :=
  verify_body_procs k locals p.body ctx m

-- --------------------------------------------------------------------------
-- Invariance of the import table's identity (local names and paths) and
-- monotonicity of use counts under the procedure passes
-- --------------------------------------------------------------------------

theorem bump_import_name (n : Ident) (i : Import) :
    (bump_import n i).local_name = i.local_name := by
  unfold bump_import
  split <;> rfl

theorem bump_import_key (n : Ident) (i : Import) :
    import_key (bump_import n i) = import_key i := by
  unfold bump_import import_key
  split <;> rfl

theorem find_map_bump (n n' : Ident) : ∀ l : List Import,
    (l.map (bump_import n')).find? (fun i => decide (i.local_name = n))
      = (l.find? (fun i => decide (i.local_name = n))).map (bump_import n')
    := by
  intro l
  induction l with
  | nil => rfl
  | cons a l ih =>
    by_cases hn : a.local_name = n
    · rw [List.map_cons,
        List.find?_cons_of_pos _ (by simp [bump_import_name, hn]),
        List.find?_cons_of_pos _ (by simp [hn])]
      rfl
    · rw [List.map_cons,
        List.find?_cons_of_neg _ (by simp [bump_import_name, hn]),
        List.find?_cons_of_neg _ (by simp [hn]), ih]

theorem resolve_mark_eq (m : Module) (n n' : Ident) :
    (m.mark_import_used n').resolve_import n
      = (m.resolve_import n).map (bump_import n') := by
  unfold Module.mark_import_used Module.resolve_import
  exact find_map_bump n n' m.imports

theorem mark_keys (m : Module) (n' : Ident) :
    (m.mark_import_used n').import_keys = m.import_keys := by
  unfold Module.import_keys Module.mark_import_used
  rw [List.map_map]
  exact List.map_congr_left (fun a _ => bump_import_key n' a)

theorem mark_uses_of_self (m : Module) (n : Ident) {imp : Import}
    (h : m.resolve_import n = some imp) :
    (m.mark_import_used n).uses_of n = m.uses_of n + 1 := by
  have hname : imp.local_name = n := by
    unfold Module.resolve_import at h
    have h2 := List.find?_some h
    exact of_decide_eq_true h2
  unfold Module.uses_of
  rw [resolve_mark_eq, h]
  simp [bump_import, hname]

theorem mark_uses_of_ge (m : Module) (n n' : Ident) :
    m.uses_of n ≤ (m.mark_import_used n').uses_of n := by
  unfold Module.uses_of
  rw [resolve_mark_eq]
  cases h : m.resolve_import n with
  | none => simp
  | some i =>
    show i.uses ≤ (bump_import n' i).uses
    unfold bump_import
    split
    · exact Nat.le_succ _
    · exact le_refl _

theorem find_import_key_congr (n : Ident) : ∀ (l l' : List Import),
    l.map import_key = l'.map import_key →
    (l.find? (fun i => decide (i.local_name = n))).map import_key
      = (l'.find? (fun i => decide (i.local_name = n))).map import_key := by
  intro l
  induction l with
  | nil =>
    intro l' h
    cases l' with
    | nil => rfl
    | cons y ys => simp at h
  | cons x xs ih =>
    intro l' h
    cases l' with
    | nil => simp at h
    | cons y ys =>
      simp only [List.map_cons, List.cons.injEq] at h
      obtain ⟨hxy, hxs⟩ := h
      have hname : x.local_name = y.local_name := congrArg Prod.fst hxy
      by_cases hn : x.local_name = n
      · rw [List.find?_cons_of_pos _ (by simp [hn]),
          List.find?_cons_of_pos _ (by simp [← hname, hn])]
        simpa using hxy
      · rw [List.find?_cons_of_neg _ (by simp [hn]),
          List.find?_cons_of_neg _ (by simp [← hname, hn])]
        exact ih ys hxs

theorem resolve_key_congr {m' m : Module}
    (h : m'.import_keys = m.import_keys) (n : Ident) :
    m'.resolve_key n = m.resolve_key n := by
  unfold Module.resolve_key Module.resolve_import
  exact find_import_key_congr n m'.imports m.imports h

-- Characterization and invariants of the alias step

theorem alias_step_resolves {a : ProcAlias} {t : ProcedurePathTarget}
    (habs : a.absolute = false) (ht : a.target = .ProcedurePath t)
    {m : Module} {imp : Import}
    (himp : m.resolve_import t.module.ns = some imp)
    (ctx : AnalysisContext) :
    alias_step ctx m a
      = (ctx, m.mark_import_used t.module.ns,
          { a with target := .ProcedurePath { t with module := imp.path } })
    := by
  simp only [alias_step, ProcAlias.is_absolute, habs, Bool.false_eq_true,
    if_false, ht, himp]

theorem alias_step_missing {a : ProcAlias} {t : ProcedurePathTarget}
    (habs : a.absolute = false) (ht : a.target = .ProcedurePath t)
    {m : Module} (himp : m.resolve_import t.module.ns = none)
    (ctx : AnalysisContext) :
    alias_step ctx m a = (ctx.error (.MissingImport a.span), m, a) := by
  simp only [alias_step, ProcAlias.is_absolute, habs, Bool.false_eq_true,
    if_false, ht, himp]

theorem alias_step_procs (ctx : AnalysisContext) (m : Module)
    (a : ProcAlias) : (alias_step ctx m a).2.1.procedures = m.procedures := by
  cases hab : a.absolute with
  | true => simp [alias_step, ProcAlias.is_absolute, hab]
  | false =>
    cases htg : a.target with
    | ProcedurePath tgt =>
      cases hr : m.resolve_import tgt.module.ns with
      | some imp =>
        simp [alias_step, ProcAlias.is_absolute, hab, htg, hr,
          Module.mark_import_used]
      | none => simp [alias_step, ProcAlias.is_absolute, hab, htg, hr]

theorem alias_step_keys (ctx : AnalysisContext) (m : Module) (a : ProcAlias) :
    (alias_step ctx m a).2.1.import_keys = m.import_keys := by
  cases hab : a.absolute with
  | true => simp [alias_step, ProcAlias.is_absolute, hab]
  | false =>
    cases htg : a.target with
    | ProcedurePath tgt =>
      cases hr : m.resolve_import tgt.module.ns with
      | some imp =>
        simp only [alias_step, ProcAlias.is_absolute, hab,
          Bool.false_eq_true, if_false, htg, hr]
        exact mark_keys m tgt.module.ns
      | none => simp [alias_step, ProcAlias.is_absolute, hab, htg, hr]

theorem alias_step_uses_ge (ctx : AnalysisContext) (m : Module)
    (a : ProcAlias) (n : Ident) :
    m.uses_of n ≤ (alias_step ctx m a).2.1.uses_of n := by
  cases hab : a.absolute with
  | true => simp [alias_step, ProcAlias.is_absolute, hab]
  | false =>
    cases htg : a.target with
    | ProcedurePath tgt =>
      cases hr : m.resolve_import tgt.module.ns with
      | some imp =>
        simp only [alias_step, ProcAlias.is_absolute, hab,
          Bool.false_eq_true, if_false, htg, hr]
        exact mark_uses_of_ge m n tgt.module.ns
      | none => simp [alias_step, ProcAlias.is_absolute, hab, htg, hr]

-- Diagnostic lists only ever grow during the passes

theorem diags_ext_trans {d1 d2 d3 : List Diagnostic}
    (h1 : ∃ t, d2 = d1 ++ t) (h2 : ∃ t, d3 = d2 ++ t) :
    ∃ t, d3 = d1 ++ t := by
  obtain ⟨t1, e1⟩ := h1
  obtain ⟨t2, e2⟩ := h2
  exact ⟨t1 ++ t2, by rw [e2, e1, List.append_assoc]⟩

theorem error_diags_ext (ctx : AnalysisContext) (e : SemanticAnalysisError) :
    ∃ tl, (ctx.error e).diagnostics = ctx.diagnostics ++ tl :=
  ⟨_, rfl⟩

theorem alias_step_diags (ctx : AnalysisContext) (m : Module)
    (a : ProcAlias) :
    ∃ tl, (alias_step ctx m a).1.diagnostics = ctx.diagnostics ++ tl := by
  cases hab : a.absolute with
  | true => exact ⟨[], by simp [alias_step, ProcAlias.is_absolute, hab]⟩
  | false =>
    cases htg : a.target with
    | ProcedurePath tgt =>
      cases hr : m.resolve_import tgt.module.ns with
      | some imp =>
        exact ⟨[], by simp [alias_step, ProcAlias.is_absolute, hab, htg, hr]⟩
      | none =>
        have hred : (alias_step ctx m a).1
            = ctx.error (.MissingImport a.span) := by
          simp [alias_step, ProcAlias.is_absolute, hab, htg, hr]
        rw [hred]
        exact error_diags_ext ctx _

theorem const_eval_imm_diags (ctx : AnalysisContext) (imm : Immediate) :
    ∃ tl, (const_eval_imm ctx imm).1.diagnostics = ctx.diagnostics ++ tl := by
  cases imm with
  | value v => exact ⟨[], by simp [const_eval_imm]⟩
  | name id sp =>
    cases h : ctx.constants.lookup id with
    | some v =>
      have hred : (const_eval_imm ctx (Immediate.name id sp)).1 = ctx := by
        simp [const_eval_imm, h]
      rw [hred]
      exact ⟨[], by simp⟩
    | none =>
      have hred : (const_eval_imm ctx (Immediate.name id sp)).1
          = ctx.error (.UnresolvedConstant sp) := by
        simp [const_eval_imm, h]
      rw [hred]
      exact error_diags_ext ctx _

theorem const_eval_inst_diags (ctx : AnalysisContext) (inst : Instruction) :
    ∃ tl, (const_eval_inst ctx inst).1.diagnostics = ctx.diagnostics ++ tl
    := by
  cases inst with
  | push imm => exact const_eval_imm_diags ctx imm
  | exec t => exact ⟨[], by simp [const_eval_inst]⟩
  | call t => exact ⟨[], by simp [const_eval_inst]⟩
  | syscall t => exact ⟨[], by simp [const_eval_inst]⟩
  | nop => exact ⟨[], by simp [const_eval_inst]⟩

theorem const_eval_body_diags : ∀ (body : List Instruction)
    (ctx : AnalysisContext),
    ∃ tl, (const_eval_body ctx body).1.diagnostics = ctx.diagnostics ++ tl
    := by
  intro body
  induction body with
  | nil => intro ctx; exact ⟨[], by simp [const_eval_body]⟩
  | cons i rest ih =>
    intro ctx
    exact diags_ext_trans (const_eval_inst_diags ctx i) (ih _)

theorem const_eval_proc_diags (ctx : AnalysisContext) (p : Procedure) :
    ∃ tl, (const_eval_procedure ctx p).1.diagnostics = ctx.diagnostics ++ tl
    :=
  const_eval_body_diags p.body ctx

theorem resolve_target_keys (ctx : AnalysisContext) (m : Module)
    (locals : List Ident) (t : InvocationTarget) :
    (resolve_invoke_target ctx m locals t).2.1.import_keys = m.import_keys
    := by
  cases t with
  | ProcedureName n sp =>
    simp only [resolve_invoke_target]
    split <;> rfl
  | ProcedurePath tgt =>
    simp only [resolve_invoke_target]
    split
    · exact mark_keys m tgt.module.ns
    · rfl
  | AbsoluteProcedurePath path n sp =>
    simp only [resolve_invoke_target]
    split <;> rfl

theorem resolve_target_uses_ge (ctx : AnalysisContext) (m : Module)
    (locals : List Ident) (t : InvocationTarget) (n : Ident) :
    m.uses_of n ≤ (resolve_invoke_target ctx m locals t).2.1.uses_of n := by
  cases t with
  | ProcedureName nm sp =>
    simp only [resolve_invoke_target]
    split <;> exact le_refl _
  | ProcedurePath tgt =>
    simp only [resolve_invoke_target]
    split
    · exact mark_uses_of_ge m n tgt.module.ns
    · exact le_refl _
  | AbsoluteProcedurePath path nm sp =>
    simp only [resolve_invoke_target]
    split <;> exact le_refl _

theorem resolve_target_diags (ctx : AnalysisContext) (m : Module)
    (locals : List Ident) (t : InvocationTarget) :
    ∃ tl, (resolve_invoke_target ctx m locals t).1.diagnostics
      = ctx.diagnostics ++ tl := by
  cases t with
  | ProcedureName nm sp =>
    simp only [resolve_invoke_target]
    split
    · exact ⟨[], by simp⟩
    · exact error_diags_ext ctx _
  | ProcedurePath tgt =>
    simp only [resolve_invoke_target]
    split
    · exact ⟨[], by simp⟩
    · exact error_diags_ext ctx _
  | AbsoluteProcedurePath path nm sp =>
    simp only [resolve_invoke_target]
    split <;> exact ⟨[], by simp⟩

theorem verify_inst_keys (k : Bool) (ctx : AnalysisContext) (m : Module)
    (locals : List Ident) (inst : Instruction) :
    (verify_invoke_inst k ctx m locals inst).2.1.import_keys
      = m.import_keys := by
  cases inst with
  | push imm => rfl
  | nop => rfl
  | exec t => exact resolve_target_keys ctx m locals t
  | call t =>
    simp only [verify_invoke_inst]
    split
    · rfl
    · exact resolve_target_keys ctx m locals t
  | syscall t =>
    simp only [verify_invoke_inst]
    split
    · rfl
    · exact resolve_target_keys ctx m locals t

theorem verify_inst_uses_ge (k : Bool) (ctx : AnalysisContext) (m : Module)
    (locals : List Ident) (inst : Instruction) (n : Ident) :
    m.uses_of n ≤ (verify_invoke_inst k ctx m locals inst).2.1.uses_of n
    := by
  cases inst with
  | push imm => exact le_refl _
  | nop => exact le_refl _
  | exec t => exact resolve_target_uses_ge ctx m locals t n
  | call t =>
    simp only [verify_invoke_inst]
    split
    · exact le_refl _
    · exact resolve_target_uses_ge ctx m locals t n
  | syscall t =>
    simp only [verify_invoke_inst]
    split
    · exact le_refl _
    · exact resolve_target_uses_ge ctx m locals t n

theorem verify_inst_diags (k : Bool) (ctx : AnalysisContext) (m : Module)
    (locals : List Ident) (inst : Instruction) :
    ∃ tl, (verify_invoke_inst k ctx m locals inst).1.diagnostics
      = ctx.diagnostics ++ tl := by
  cases inst with
  | push imm => exact ⟨[], by simp [verify_invoke_inst]⟩
  | nop => exact ⟨[], by simp [verify_invoke_inst]⟩
  | exec t => exact resolve_target_diags ctx m locals t
  | call t =>
    simp only [verify_invoke_inst]
    split
    · exact error_diags_ext ctx _
    · exact resolve_target_diags ctx m locals t
  | syscall t =>
    simp only [verify_invoke_inst]
    split
    · exact error_diags_ext ctx _
    · exact resolve_target_diags ctx m locals t

theorem verify_body_keys (k : Bool) (locals : List Ident) :
    ∀ (body : List Instruction) (ctx : AnalysisContext) (m : Module),
    (verify_invoke_body k ctx m locals body).2.1.import_keys
      = m.import_keys := by
  intro body
  induction body with
  | nil => intro ctx m; rfl
  | cons i rest ih =>
    intro ctx m
    exact (ih _ _).trans (verify_inst_keys k ctx m locals i)

theorem verify_body_uses_ge (k : Bool) (locals : List Ident) :
    ∀ (body : List Instruction) (ctx : AnalysisContext) (m : Module)
      (n : Ident),
    m.uses_of n ≤ (verify_invoke_body k ctx m locals body).2.1.uses_of n
    := by
  intro body
  induction body with
  | nil => intro ctx m n; exact le_refl _
  | cons i rest ih =>
    intro ctx m n
    exact le_trans (verify_inst_uses_ge k ctx m locals i n) (ih _ _ n)

theorem verify_body_diags (k : Bool) (locals : List Ident) :
    ∀ (body : List Instruction) (ctx : AnalysisContext) (m : Module),
    ∃ tl, (verify_invoke_body k ctx m locals body).1.diagnostics
      = ctx.diagnostics ++ tl := by
  intro body
  induction body with
  | nil => intro ctx m; exact ⟨[], by simp [verify_invoke_body]⟩
  | cons i rest ih =>
    intro ctx m
    exact diags_ext_trans (verify_inst_diags k ctx m locals i) (ih _ _)

theorem verify_proc_keys (k : Bool) (ctx : AnalysisContext) (m : Module)
    (locals : List Ident) (p : Procedure) :
    (verify_invoke_procedure k ctx m locals p).2.1.import_keys
      = m.import_keys :=
  verify_body_keys k locals p.body ctx m

theorem verify_proc_uses_ge (k : Bool) (ctx : AnalysisContext) (m : Module)
    (locals : List Ident) (p : Procedure) (n : Ident) :
    m.uses_of n ≤ (verify_invoke_procedure k ctx m locals p).2.1.uses_of n
    :=
  verify_body_uses_ge k locals p.body ctx m n

theorem verify_proc_diags (k : Bool) (ctx : AnalysisContext) (m : Module)
    (locals : List Ident) (p : Procedure) :
    ∃ tl, (verify_invoke_procedure k ctx m locals p).1.diagnostics
      = ctx.diagnostics ++ tl :=
  verify_body_diags k locals p.body ctx m

-- Invariants of the full procedures loop

theorem visit_loop_append (k : Bool) (l : List Ident) :
    ∀ (xs ys : List Export) (ctx : AnalysisContext) (m : Module),
    visit_loop k l ctx m (xs ++ ys)
      = visit_loop k l (visit_loop k l ctx m xs).2
          (visit_loop k l ctx m xs).1 ys := by
  intro xs
  induction xs with
  | nil => intro ys ctx m; rfl
  | cons e xs ih =>
    intro ys ctx m
    cases e with
    | Procedure p =>
      simp only [List.cons_append, visit_loop]
      exact ih ys _ _
    | Alias a =>
      simp only [List.cons_append, visit_loop]
      exact ih ys _ _

theorem visit_loop_keys (k : Bool) (l : List Ident) :
    ∀ (pending : List Export) (ctx : AnalysisContext) (m : Module),
    (visit_loop k l ctx m pending).1.import_keys = m.import_keys := by
  intro pending
  induction pending with
  | nil => intro ctx m; rfl
  | cons e rest ih =>
    intro ctx m
    cases e with
    | Procedure p =>
      simp only [visit_loop]
      exact (ih _ _).trans (verify_proc_keys k _ m l _)
    | Alias a =>
      simp only [visit_loop]
      exact (ih _ _).trans (alias_step_keys ctx m a)

theorem visit_loop_uses_ge (k : Bool) (l : List Ident) :
    ∀ (pending : List Export) (ctx : AnalysisContext) (m : Module)
      (n : Ident),
    m.uses_of n ≤ (visit_loop k l ctx m pending).1.uses_of n := by
  intro pending
  induction pending with
  | nil => intro ctx m n; exact le_refl _
  | cons e rest ih =>
    intro ctx m n
    cases e with
    | Procedure p =>
      simp only [visit_loop]
      refine le_trans ?_ (ih _ _ n)
      exact verify_proc_uses_ge k _ m l _ n
    | Alias a =>
      simp only [visit_loop]
      refine le_trans ?_ (ih _ _ n)
      exact alias_step_uses_ge ctx m a n

theorem visit_loop_procs_len (k : Bool) (l : List Ident) :
    ∀ (pending : List Export) (ctx : AnalysisContext) (m : Module),
    (visit_loop k l ctx m pending).1.procedures.length
      = m.procedures.length + pending.length := by
  intro pending
  induction pending with
  | nil => intro ctx m; rfl
  | cons e rest ih =>
    intro ctx m
    cases e with
    | Procedure p =>
      simp only [visit_loop]
      rw [ih]
      simp only [verify_procs, List.length_append, List.length_cons,
        List.length_nil]
      omega
    | Alias a =>
      simp only [visit_loop]
      rw [ih]
      simp only [alias_step_procs, List.length_append, List.length_cons,
        List.length_nil]
      omega

theorem visit_loop_procs_stable (k : Bool) (l : List Ident) :
    ∀ (pending : List Export) (ctx : AnalysisContext) (m : Module) (i : Nat),
    i < m.procedures.length →
    (visit_loop k l ctx m pending).1.procedures[i]?
      = m.procedures[i]? := by
  intro pending
  induction pending with
  | nil => intro ctx m i h; rfl
  | cons e rest ih =>
    intro ctx m i h
    cases e with
    | Procedure p =>
      simp only [visit_loop]
      refine Eq.trans (ih _ _ i ?_) ?_
      · simp only [verify_procs, List.length_append]
        omega
      · simp only [verify_procs]
        exact List.getElem?_append_left h
    | Alias a =>
      simp only [visit_loop]
      refine Eq.trans (ih _ _ i ?_) ?_
      · simp only [alias_step_procs, List.length_append]
        omega
      · simp only [alias_step_procs]
        exact List.getElem?_append_left h

theorem visit_loop_diags (k : Bool) (l : List Ident) :
    ∀ (pending : List Export) (ctx : AnalysisContext) (m : Module),
    ∃ tl, (visit_loop k l ctx m pending).2.diagnostics
      = ctx.diagnostics ++ tl := by
  intro pending
  induction pending with
  | nil => intro ctx m; exact ⟨[], by simp [visit_loop]⟩
  | cons e rest ih =>
    intro ctx m
    cases e with
    | Procedure p =>
      simp only [visit_loop]
      exact diags_ext_trans
        (diags_ext_trans (const_eval_proc_diags ctx _)
          (verify_proc_diags k _ m l _))
        (ih _ _)
    | Alias a =>
      simp only [visit_loop]
      exact diags_ext_trans (alias_step_diags ctx m a) (ih _ _)

/-- One alias at an arbitrary position in the pending list: if its
target's short module name resolves, the alias lands (rewritten to the
full path) at the position it occupied, the import table still resolves
that name to the same import, and its use count has strictly grown; if it
does not resolve, `MissingImport` at the alias's span ends up in the
diagnostics. -/
theorem visit_loop_alias_mid (k : Bool) (locals : List Ident)
    (a : ProcAlias) (t : ProcedurePathTarget) (habs : a.absolute = false)
    (ht : a.target = .ProcedurePath t) (pre post : List Export)
    (ctx : AnalysisContext) (m0 : Module) :
    (∀ imp : Import, m0.resolve_import t.module.ns = some imp →
      (visit_loop k locals ctx m0
            (pre ++ .Alias a :: post)).1.procedures[m0.procedures.length
              + pre.length]?
          = some (.Alias { a with
              target := .ProcedurePath { t with module := imp.path } })
        ∧ (visit_loop k locals ctx m0
              (pre ++ .Alias a :: post)).1.resolve_key t.module.ns
            = some (import_key imp)
        ∧ imp.uses + 1
            ≤ (visit_loop k locals ctx m0
                (pre ++ .Alias a :: post)).1.uses_of t.module.ns)
    ∧ (m0.resolve_import t.module.ns = none →
      (Severity.error, SemanticAnalysisError.MissingImport a.span)
        ∈ (visit_loop k locals ctx m0
            (pre ++ .Alias a :: post)).2.diagnostics) := by
  obtain ⟨M1, CTX1, hM1⟩ :
      ∃ M1 CTX1, visit_loop k locals ctx m0 pre = (M1, CTX1) := ⟨_, _, rfl⟩
  have hsplit : visit_loop k locals ctx m0 (pre ++ Export.Alias a :: post)
      = visit_loop k locals CTX1 M1 (Export.Alias a :: post) := by
    rw [visit_loop_append, hM1]
  have hkeys1 : M1.import_keys = m0.import_keys := by
    have h := visit_loop_keys k locals pre ctx m0
    rw [hM1] at h
    exact h
  have hlen1 : M1.procedures.length = m0.procedures.length + pre.length := by
    have hvis := visit_loop_procs_len k locals pre ctx m0
    rw [hM1] at hvis
    exact hvis
  constructor
  · intro imp hres
    have hkeyM1 : M1.resolve_key t.module.ns = some (import_key imp) := by
      rw [resolve_key_congr hkeys1]
      unfold Module.resolve_key
      rw [hres]
      rfl
    obtain ⟨imp1, himp1, hk1⟩ := Option.map_eq_some'.mp hkeyM1
    have hpath1 : imp1.path = imp.path := congrArg Prod.snd hk1
    have hstep : visit_loop k locals CTX1 M1 (Export.Alias a :: post)
        = visit_loop k locals CTX1
            { M1.mark_import_used t.module.ns with
              procedures := M1.procedures ++ [Export.Alias { a with
                target := AliasTarget.ProcedurePath
                  { t with module := imp.path } }] }
            post := by
      simp only [visit_loop, alias_step_resolves habs ht himp1, hpath1,
        Module.mark_import_used]
    rw [hsplit, hstep]
    refine ⟨?_, ?_, ?_⟩
    · have hlt : M1.procedures.length
          < ({ M1.mark_import_used t.module.ns with
              procedures := M1.procedures ++ [Export.Alias { a with
                target := AliasTarget.ProcedurePath
                  { t with module := imp.path } }] } : Module
            ).procedures.length := by
        simp
      have hstab := visit_loop_procs_stable k locals post CTX1 _ _ hlt
      rw [← hlen1, hstab]
      show (M1.procedures ++ [Export.Alias { a with
        target := AliasTarget.ProcedurePath { t with module := imp.path } }]
        )[M1.procedures.length]? = _
      rw [List.getElem?_append_right (le_refl _)]
      simp
    · have hkfin := visit_loop_keys k locals post CTX1
        ({ M1.mark_import_used t.module.ns with
           procedures := M1.procedures ++ [Export.Alias { a with
             target := AliasTarget.ProcedurePath
               { t with module := imp.path } }] })
      have hchain : (visit_loop k locals CTX1
          ({ M1.mark_import_used t.module.ns with
             procedures := M1.procedures ++ [Export.Alias { a with
               target := AliasTarget.ProcedurePath
                 { t with module := imp.path } }] }) post).1.import_keys
          = m0.import_keys := by
        rw [hkfin]
        exact (mark_keys M1 t.module.ns).trans hkeys1
      rw [resolve_key_congr hchain]
      unfold Module.resolve_key
      rw [hres]
      rfl
    · refine le_trans ?_ (visit_loop_uses_ge k locals post CTX1 _
        t.module.ns)
      show imp.uses + 1
        ≤ (M1.mark_import_used t.module.ns).uses_of t.module.ns
      rw [mark_uses_of_self M1 _ himp1]
      have h1 : m0.uses_of t.module.ns = imp.uses := by
        unfold Module.uses_of
        rw [hres]
        rfl
      have h2 : m0.uses_of t.module.ns ≤ M1.uses_of t.module.ns := by
        have h := visit_loop_uses_ge k locals pre ctx m0 t.module.ns
        rw [hM1] at h
        exact h
      omega
  · intro hres
    have hnone1 : M1.resolve_import t.module.ns = none := by
      have hkey := resolve_key_congr hkeys1 t.module.ns
      unfold Module.resolve_key at hkey
      rw [hres] at hkey
      exact Option.map_eq_none'.mp hkey
    have hstep : visit_loop k locals CTX1 M1 (Export.Alias a :: post)
        = visit_loop k locals
            (CTX1.error (.MissingImport a.span))
            { M1 with procedures := M1.procedures ++ [Export.Alias a] }
            post := by
      simp only [visit_loop, alias_step_missing habs ht hnone1]
    rw [hsplit, hstep]
    obtain ⟨tl, htl⟩ := visit_loop_diags k locals post
      (CTX1.error (.MissingImport a.span))
      { M1 with procedures := M1.procedures ++ [Export.Alias a] }
    rw [htl]
    have herr : (CTX1.error
          (SemanticAnalysisError.MissingImport a.span)).diagnostics
        = CTX1.diagnostics
          ++ [(Severity.error,
               SemanticAnalysisError.MissingImport a.span)] := rfl
    rw [herr, List.append_assoc]
    exact List.mem_append_right _ (List.mem_append_left _ (by simp))

theorem vis_after_ne_public (e : Export) :
    vis_after e ≠ some Visibility.Public := by
  cases e with
  | Procedure p =>
    simp only [vis_after, Export.procedure_visibility, Option.map_some]
    intro hcon
    injection hcon with hcon
    by_cases hv : p.visibility = Visibility.Public <;> simp [hv] at hcon
  | Alias a =>
    simp [vis_after, Export.procedure_visibility]

/-- Walking the procedures of a kernel module maps every export's
visibility through the kernel rewrite, preserving order. -/
theorem visit_loop_vis (locals : List Ident) :
    ∀ (pending : List Export) (ctx : AnalysisContext) (m : Module),
    (visit_loop true locals ctx m pending).1.procedures.map
        Export.procedure_visibility
      = m.procedures.map Export.procedure_visibility
        ++ pending.map vis_after := by
  intro pending
  induction pending with
  | nil => intro ctx m; simp [visit_loop]
  | cons e rest ih =>
    intro ctx m
    cases e with
    | Procedure p =>
      simp only [visit_loop, Bool.true_and]
      rw [ih]
      by_cases hv : p.visibility = Visibility.Public <;>
        simp [hv, verify_procs, verify_vis, const_eval_vis, vis_after,
          Export.procedure_visibility, Procedure.set_visibility,
          List.map_append]
    | Alias a =>
      simp only [visit_loop]
      rw [ih]
      simp [alias_step_procs, vis_after, Export.procedure_visibility,
        List.map_append]

-- ==========================================================================
-- Claim theorems: semantic analysis
-- ==========================================================================

/-- C2: after the procedure passes, every procedure of a Kernel module
carries its visibility mapped through the kernel rewrite — originally
Public procedures are Syscall — and `Public` is not observable on any
export of the returned module. -/
theorem kernel_public_rewritten_to_syscall (m : Module)
    (ctx : AnalysisContext) (hk : m.kind = ModuleKind.Kernel) :
    (visit_procedures m ctx).1.procedures.map Export.procedure_visibility
      = m.procedures.map vis_after
    ∧ some Visibility.Public ∉
      (visit_procedures m ctx).1.procedures.map Export.procedure_visibility
    := by
  have hkb : m.is_kernel = true := by simp [Module.is_kernel, hk]
  have h1 : (visit_procedures m ctx).1.procedures.map
      Export.procedure_visibility = m.procedures.map vis_after := by
    unfold visit_procedures
    rw [hkb, visit_loop_vis]
    simp
  refine ⟨h1, ?_⟩
  rw [h1]
  intro hmem
  rw [List.mem_map] at hmem
  obtain ⟨e, _, he⟩ := hmem
  exact vis_after_ne_public e he

/-- Witness for C2: a kernel module with one Public and one Private
procedure. -/
theorem kernel_public_rewritten_to_syscall_witness :
    c2_m.kind = ModuleKind.Kernel ∧
    ((visit_procedures c2_m c2_ctx).1.procedures.map
        Export.procedure_visibility
      = c2_m.procedures.map vis_after
    ∧ some Visibility.Public ∉
      (visit_procedures c2_m c2_ctx).1.procedures.map
        Export.procedure_visibility) :=
  ⟨rfl, kernel_public_rewritten_to_syscall c2_m c2_ctx rfl⟩

/-- C7: for every non-absolute alias, anywhere in any module's procedure
list — (A) one loop step on the alias, when the target's short module name
resolves to an import, rewrites the target to the import's
fully-qualified path and bumps the import's `uses`; (B) one loop step,
when it does not resolve, records `MissingImport` at the alias's span and
keeps the alias as-is; (C) through the whole `visit_procedures` pass, the
resolved alias ends at its original position rewritten to the full path,
the name still resolves to the same import, and that import's use count
has strictly increased; (D) through the whole pass, an unresolvable alias
leaves `MissingImport` at the alias's span in the diagnostics. -/
theorem visit_procedures_alias_resolution (a : ProcAlias)
    (t : ProcedurePathTarget) (habs : a.absolute = false)
    (ht : a.target = .ProcedurePath t) :
    (∀ (k : Bool) (locals : List Ident) (ctx : AnalysisContext)
        (m : Module) (rest : List Export) (imp : Import),
      m.resolve_import t.module.ns = some imp →
      visit_loop k locals ctx m (.Alias a :: rest)
        = visit_loop k locals ctx
            { m with
              imports := (m.mark_import_used t.module.ns).imports,
              procedures := m.procedures ++ [.Alias { a with
                target := .ProcedurePath { t with module := imp.path } }] }
            rest)
    ∧ (∀ (k : Bool) (locals : List Ident) (ctx : AnalysisContext)
        (m : Module) (rest : List Export),
      m.resolve_import t.module.ns = none →
      visit_loop k locals ctx m (.Alias a :: rest)
        = visit_loop k locals (ctx.error (.MissingImport a.span))
            { m with procedures := m.procedures ++ [.Alias a] } rest)
    ∧ (∀ (m : Module) (ctx : AnalysisContext) (pre post : List Export)
        (imp : Import),
      m.procedures = pre ++ .Alias a :: post →
      m.resolve_import t.module.ns = some imp →
      (visit_procedures m ctx).1.procedures[pre.length]?
          = some (.Alias { a with
              target := .ProcedurePath { t with module := imp.path } })
        ∧ (visit_procedures m ctx).1.resolve_key t.module.ns
            = some (imp.local_name, imp.path)
        ∧ imp.uses + 1 ≤ (visit_procedures m ctx).1.uses_of t.module.ns)
    ∧ (∀ (m : Module) (ctx : AnalysisContext) (pre post : List Export),
      m.procedures = pre ++ .Alias a :: post →
      m.resolve_import t.module.ns = none →
      (Severity.error, SemanticAnalysisError.MissingImport a.span)
        ∈ (visit_procedures m ctx).2.diagnostics) := by
  refine ⟨?_, ?_, ?_, ?_⟩
  · intro k locals ctx m rest imp himp
    simp only [visit_loop, alias_step_resolves habs ht himp,
      Module.mark_import_used]
  · intro k locals ctx m rest himp
    simp only [visit_loop, alias_step_missing habs ht himp]
  · intro m ctx pre post imp hp hres
    have hv : visit_procedures m ctx
        = visit_loop m.is_kernel (m.procedures.map (fun e => e.name)) ctx
            { m with procedures := [] } (pre ++ Export.Alias a :: post) := by
      unfold visit_procedures
      rw [hp]
    have h := (visit_loop_alias_mid m.is_kernel
      (m.procedures.map (fun e => e.name)) a t habs ht pre post ctx
      { m with procedures := [] }).1 imp hres
    rw [hv]
    refine ⟨?_, h.2.1, h.2.2⟩
    have h1 := h.1
    simpa using h1
  · intro m ctx pre post hp hres
    have hv : visit_procedures m ctx
        = visit_loop m.is_kernel (m.procedures.map (fun e => e.name)) ctx
            { m with procedures := [] } (pre ++ Export.Alias a :: post) := by
      unfold visit_procedures
      rw [hp]
    have h := (visit_loop_alias_mid m.is_kernel
      (m.procedures.map (fun e => e.name)) a t habs ht pre post ctx
      { m with procedures := [] }).2 hres
    rw [hv]
    exact h

/-- Witness for C7: a library importing `std::math::u64` whose second
export re-exports `u64::wrapping_add` as `mod64` (a sibling procedure
comes first); after the pass, the alias at position 1 carries the full
path, `u64` still resolves to the import, and its use count reached 1. -/
theorem visit_procedures_alias_resolution_witness :
    c7_m2.procedures
      = [Export.Procedure c7_other] ++ Export.Alias c7_alias :: [] ∧
    c7_m2.resolve_import "u64" = some c7_imp ∧
    ((visit_procedures c7_m2 c7_ctx).1.procedures[1]?
        = some (.Alias { c7_alias with
            target := .ProcedurePath { c7_t with module := c7_imp.path } })
      ∧ (visit_procedures c7_m2 c7_ctx).1.resolve_key "u64"
          = some (c7_imp.local_name, c7_imp.path)
      ∧ c7_imp.uses + 1 ≤ (visit_procedures c7_m2 c7_ctx).1.uses_of "u64") :=
  ⟨rfl, by decide,
    (visit_procedures_alias_resolution c7_alias c7_t rfl rfl).2.2.1 c7_m2
      c7_ctx [Export.Procedure c7_other] [] c7_imp rfl (by decide)⟩

-- Propagation of an error diagnostic through the tail of `analyze`

theorem error_diags_mem (ctx : AnalysisContext) (e : SemanticAnalysisError)
    {d : Diagnostic} (h : d ∈ ctx.diagnostics) :
    d ∈ (ctx.error e).diagnostics :=
  List.mem_append_left _ h

theorem error_diags_self (ctx : AnalysisContext) (e : SemanticAnalysisError)
    (hsev : e.severity = .error) :
    (Severity.error, e) ∈ (ctx.error e).diagnostics := by
  simp [AnalysisContext.error, hsev]

theorem entry_check_mem (ctx : AnalysisContext) (m : Module)
    {d : Diagnostic} (h : d ∈ ctx.diagnostics) :
    d ∈ (analyze_entry_check ctx m).diagnostics := by
  unfold analyze_entry_check
  split
  · exact error_diags_mem ctx _ h
  · exact h

theorem has_failed_of_error_mem (ctx : AnalysisContext)
    (e : SemanticAnalysisError)
    (h : (Severity.error, e) ∈ ctx.diagnostics) :
    ctx.has_failed = .error ⟨ctx.diagnostics⟩ := by
  unfold AnalysisContext.has_failed
  rw [if_pos]
  exact List.any_eq_true.mpr ⟨(Severity.error, e), h, rfl⟩

theorem analyze_finish_of_error_mem (ctx : AnalysisContext) (m : Module)
    (e : SemanticAnalysisError)
    (h : (Severity.error, e) ∈ ctx.diagnostics) :
    analyze_finish ctx m = .error ⟨ctx.diagnostics⟩ := by
  unfold analyze_finish
  rw [has_failed_of_error_mem ctx e h]

/-- C9: a `Doc` form arriving while another docstring is buffered reports
the buffered one as `UnusedDocstring` and replaces it (first conjunct, in
any state); in every invocation whose form loop ends with a docstring
still buffered, `analyze` fails and its diagnostics contain an
`UnusedDocstring` at the buffered docstring's span (second conjunct); a
stream of two `Doc` forms yields exactly the two `UnusedDocstring`
diagnostics, the second from the end-of-forms check (third conjunct). -/
theorem doc_buffer_replacement_and_trailing :
    (∀ (ctx : AnalysisContext) (m : Module) (d0 d : DocString)
        (rest : List Form),
      analyze_forms ctx m (some d0) (.Doc d :: rest)
        = analyze_forms (ctx.error (.UnusedDocstring d0.span)) m (some d)
            rest)
    ∧ (∀ (kind : ModuleKind) (path : LibraryPath) (forms : List Form)
        (w : Bool) (ctx : AnalysisContext) (m : Module) (d : DocString),
      analyze_forms (AnalysisContext.new w) (Module.new kind path) none forms
        = .ok (ctx, m, some d) →
      (analyze kind path forms w).is_error = true
        ∧ (Severity.error, SemanticAnalysisError.UnusedDocstring d.span)
          ∈ (analyze kind path forms w).error_diagnostics)
    ∧ ∀ (path : LibraryPath) (d1 d2 : DocString),
      analyze .Library path [.Doc d1, .Doc d2] false
        = .error ⟨[(.error, .UnusedDocstring d1.span),
                   (.error, .UnusedDocstring d2.span)]⟩ := by
  refine ⟨?_, ?_, ?_⟩
  · intro ctx m d0 d rest
    rfl
  · intro kind path forms w ctx m d hloop
    have hmem : (Severity.error,
          SemanticAnalysisError.UnusedDocstring d.span)
        ∈ (analyze_entry_check (analyze_docs_check ctx (some d)) m
            ).diagnostics := by
      refine entry_check_mem _ m ?_
      exact error_diags_self ctx _ rfl
    have hfin : analyze kind path forms w
        = .error ⟨(analyze_entry_check (analyze_docs_check ctx (some d)) m
            ).diagnostics⟩ := by
      unfold analyze
      rw [hloop]
      exact analyze_finish_of_error_mem _ m _ hmem
    rw [hfin]
    exact ⟨rfl, hmem⟩
  · intro path d1 d2
    rfl

/-- Witness for C9: the single-form stream `[Doc c9_doc]` reaches the end
of the forms with `c9_doc` still buffered; `analyze` fails and its
diagnostics contain `UnusedDocstring` at `c9_doc`'s span. -/
theorem doc_buffer_replacement_and_trailing_witness :
    (analyze_forms (AnalysisContext.new false)
        (Module.new .Library c9_path) none [.Doc c9_doc]
      = .ok (AnalysisContext.new false, Module.new .Library c9_path,
          some c9_doc))
    ∧ ((analyze .Library c9_path [.Doc c9_doc] false).is_error = true
      ∧ (Severity.error, SemanticAnalysisError.UnusedDocstring c9_doc.span)
        ∈ (analyze .Library c9_path [.Doc c9_doc] false).error_diagnostics) :=
  ⟨rfl, doc_buffer_replacement_and_trailing.2.1 .Library c9_path
    [.Doc c9_doc] false (AnalysisContext.new false)
    (Module.new .Library c9_path) c9_doc rfl⟩

/-- C6 (amended): the assertion on `ModuleDoc` enforces only that no
docstring is currently buffered — a `ModuleDoc` arriving after a pending
`Doc` aborts via the failed assert (not a diagnostic). -/
theorem module_doc_assert_on_pending_doc (kind : ModuleKind)
    (path : LibraryPath) (d d2 : DocString) (rest : List Form) (w : Bool) :
    analyze kind path (.Doc d :: .ModuleDoc d2 :: rest) w
      = .panic "assertion failed: docs.is_none()" :=
  rfl

/-- C6 counterexample: two `ModuleDoc` forms with no pending docstring
pass the assertion — the input is accepted with the second docstring
silently overwriting the first, so "at most once" is not enforced. -/
theorem module_doc_twice_not_rejected :
    analyze .Library c6_path [.ModuleDoc c6_d1, .ModuleDoc c6_d2] false
      = .ok { kind := .Library, path := c6_path, docs := some c6_d2,
              imports := [], procedures := [] } := by
  decide

/-- C10: whenever `define_procedure` returns successfully — both on the
plain success path and on the `SymbolConflict` path — the procedure's name
has been registered in the analysis context. -/
theorem define_procedure_registers_name (e : Export) (m : Module)
    (ctx : AnalysisContext) (m' : Module) (ctx' : AnalysisContext)
    (h : define_procedure e m ctx = .ok (m', ctx')) :
    ctx'.procedure_names = ctx.procedure_names ++ [e.name] := by
  by_cases hc : (m.procedures.any fun p => p.name == e.name) = true
  · simp only [define_procedure, Module.define_procedure, hc, if_true] at h
    injection h with h1
    injection h1 with h2 h3
    subst h3
    simp [AnalysisContext.register_procedure_name, AnalysisContext.error]
  · simp only [define_procedure, Module.define_procedure, hc,
      Bool.false_eq_true, if_false] at h
    injection h with h1
    injection h1 with h2 h3
    subst h3
    simp [AnalysisContext.register_procedure_name]

/-- Witness for C10: defining a second procedure named `foo` over a module
that already has one — the conflict is recorded and the name is still
registered. -/
theorem define_procedure_registers_name_witness :
    define_procedure c10_e c10_m c10_ctx = .ok (c10_m, c10_ctx_after) ∧
    c10_ctx_after.procedure_names
      = c10_ctx.procedure_names ++ [c10_e.name] :=
  ⟨by decide,
    define_procedure_registers_name c10_e c10_m c10_ctx c10_m c10_ctx_after
      (by decide)⟩

/-- C1 (amended): a duplicate import records `ImportConflict` for the
second import and form processing continues (later form-level diagnostics
are still reported), but `has_failed()` gates before the procedure passes,
so no body-level `MissingImport` is reported in the same invocation. -/
theorem analyze_import_conflict_gates_bodies (path : LibraryPath)
    (i1 i2 : Import) (pr : Procedure) (body : List Instruction) (sp : Span)
    (w : Bool) (hname : i1.local_name = i2.local_name) :
    analyze .Library path
      [.Import i1, .Import i2, .Procedure (.Procedure pr), .Begin body sp] w
      = .error ⟨[(.error, .ImportConflict i2.span),
                 (.error, .UnexpectedEntrypoint sp)]⟩ := by
  simp [analyze, analyze_forms, analyze_docs_check, analyze_entry_check,
    analyze_finish, define_import, Module.define_import,
    define_procedure, Module.define_procedure, AnalysisContext.new,
    Module.new, AnalysisContext.error, AnalysisContext.register_procedure_name,
    AnalysisContext.has_failed, SemanticAnalysisError.severity,
    Export.with_docs, Export.name, hname]

/-- Witness for C1 (amended): concrete duplicate imports of `u64`. -/
theorem analyze_import_conflict_gates_bodies_witness :
    c1_i1.local_name = c1_i2.local_name ∧
    analyze .Library c1_path
      [.Import c1_i1, .Import c1_i2, .Procedure (.Procedure c1_proc),
        .Begin [] (spn 5)] false
      = .error ⟨[(.error, .ImportConflict c1_i2.span),
                 (.error, .UnexpectedEntrypoint (spn 5))]⟩ :=
  ⟨rfl, analyze_import_conflict_gates_bodies c1_path c1_i1 c1_i2 c1_proc []
    (spn 5) false rfl⟩

/-- C1 counterexample: with two conflicting imports and a procedure body
whose callee would produce `MissingImport` (second conjunct shows the
invoke-target pass reports it when run), the invocation's diagnostic list
contains only the `ImportConflict` — the body-level `MissingImport` is not
reported in the same invocation. -/
theorem analyze_import_conflict_no_missing_import :
    analyze .Library c1_path
      [.Import c1_i1, .Import c1_i2, .Procedure (.Procedure c1_proc)] false
      = .error ⟨[(.error, .ImportConflict (spn 2))]⟩
    ∧ (visit_procedures c1_module_after_forms
        (AnalysisContext.new false)).2.diagnostics
      = [(.error, .MissingImport (spn 4))] := by
  decide

/-- Witness for C8: one `Noop` on the blank process (clock 0, limit 10). -/
theorem execute_op_noop_ok_witness :
    exP.system.clk + 1 ≤ exP.max_cycles ∧
    ((exP.execute_op .Noop exH).is_ok = true ∧
      ((exP.execute_op .Noop exH).the_process exP).stack.elems
        = exP.stack.elems ∧
      ((exP.execute_op .Noop exH).the_process exP).system.clk
        = exP.system.clk + 1 ∧
      (exP.execute_op .Noop exH).the_host exH = exH) :=
  ⟨by decide, execute_op_noop_ok exP exH (by decide)⟩

end Miden
